import Mathlib

/-!
# Verification of the GMSO LAMMPS data codec

A shallow embedding of `gmso/formats/lammpsdata.py` (writer `write_lammpsdata`,
reader helpers `read_lammpsdata`, `get_units`, `_get_connection`,
`_get_ff_information`, `_get_box_coordinates`, `_write_*`) and of
`gmso/core/atom_type.py` (`AtomType.__eq__`).

Modelling conventions:
* Python floats are modelled as `ℚ` (exact rationals); quantities are assumed to
  be stored in the unit style's base units, so unit conversion of a value is the
  identity followed by reduced-unit division and rounding (see `convert_parameter`).
* A written file is a `List Line` of structured records; each `Line` constructor
  corresponds to one formatted output line of the Python writer, carrying exactly
  the fields the format string interpolates.  Byte equality of two written files
  corresponds to equality of the two `List Line` values, since the rendering of a
  structured line is a fixed function of its fields.
* Python exceptions are modelled with `Except Err`; a call that raises before
  writing anything returns `.error e` and produces no output lines.
* The triclinic box number crunching (`sqrt`/`arccos`) is modelled over `ℝ` in a
  dedicated section, mirroring `_write_box` (triclinic branch) and
  `_get_box_coordinates`.
-/

/-- Python exception kinds raised by the modelled code paths. -/
inductive Err
  | valueError
  | keyError
  | indexError
  | attributeError
  | incompatiblePotential
deriving DecidableEq, Repr

/-- Unit expressions attached to parsed quantities, mirroring `unyt` unit
arithmetic as used in `lammpsdata.py` (`get_units(...) / get_units(...) ** 2`…).
`base style dim` stands for `u.Unit(base_unyts.usystem[dim])` for a non-reduced
style. -/
inductive LUnit
  | radian
  | degree
  | dimensionless
  | base (style : String) (dimension : String)
  | mul (a b : LUnit)
  | div (a b : LUnit)
  | pow (a : LUnit) (n : ℕ)
deriving DecidableEq, Repr

/-- A numeric value with an attached unit expression, as built by the reader
(`float(line.split()[i]) * get_units(...)`). -/
structure Quantity where
  val : ℚ
  unit : LUnit
deriving DecidableEq, Repr

/-- Modelled from the spec: the per-style base-unit table of
`LAMMPS_UnitSystems` (`gmso/utils/units.py`, not under `src/`).  The spec fixes
only what the claims need: every non-reduced style's base `angle` unit is the
radian (equilibrium angles are special-cased to degrees elsewhere, which is the
divergence the spec demands); all other dimensions are opaque per-style base
units. -/
def usystemBase (style dimension : String) : LUnit :=
  if dimension = "angle" then .radian else .base style dimension

/-- `get_units` from `gmso/formats/lammpsdata.py`: unit for a LAMMPS unit style
and dimension.  The `lj` style maps `angle` to radian and everything else to
dimensionless; otherwise `angle_eq` is special-cased to degree, and any other
dimension is looked up in the style's base-unit table. -/
def get_units (style dimension : String) : LUnit :=
  if style = "lj" then
    if dimension = "angle" then .radian else .dimensionless
  else if dimension = "angle_eq" then .degree
  else usystemBase style dimension

/-- The atom styles accepted by `write_lammpsdata`. -/
def writeAtomStyles : List String := ["full", "atomic", "molecular", "charge"]

/-- The unit styles accepted by both `write_lammpsdata` and `read_lammpsdata`. -/
def unitStyles : List String :=
  ["real", "lj", "metal", "si", "cgs", "electron", "micro", "nano"]

/-! ## Python `sorted` with a key

Python compares strings by Unicode code points; we map a string to its list of
code points and sort keys are lists of such lists (one per tuple component of
the Python sort key), ordered lexicographically. -/

/-- A string as its list of Unicode code points (Python string ordering). -/
def strKey (s : String) : List ℕ := s.data.map Char.toNat

/-- The sort-key codomain: a Python tuple/list of strings, as code-point lists,
compared lexicographically. -/
abbrev SKey := List (List ℕ)

/-- Python's stable `sorted(l, key=key)` (and `list.sort(key=key)`), modelled as
insertion sort on the lexicographic key order. -/
def pySorted {α : Type} (key : α → SKey) (l : List α) : List α :=
  l.insertionSort (fun a b => key a ≤ key b)

/-- Python's `sorted` on a list of strings (`sorted(x.member_types)` …). -/
def sortStringsPy (l : List String) : List String :=
  pySorted (fun s => [strKey s]) l

/-- Python `min(a, b)` on two strings. -/
def minStr (a b : String) : String := if strKey a ≤ strKey b then a else b

/-- Python `max(a, b)` on two strings. -/
def maxStr (a b : String) : String := if strKey a ≤ strKey b then b else a

theorem pySorted_perm {α : Type} (key : α → SKey) (l : List α) :
    (pySorted key l).Perm l :=
  List.perm_insertionSort _ l

theorem pySorted_sorted {α : Type} (key : α → SKey) (l : List α) :
    (pySorted key l).Sorted (fun a b => key a ≤ key b) := by
  haveI : IsTotal α (fun a b => key a ≤ key b) := ⟨fun a b => le_total _ _⟩
  haveI : IsTrans α (fun a b => key a ≤ key b) := ⟨fun _ _ _ => le_trans⟩
  exact List.sorted_insertionSort _ l

/-- Two sorted lists that are permutations of each other and whose keys are
pairwise distinct are equal. -/
theorem eq_of_perm_of_sorted_of_nodupKeys {α : Type} (key : α → SKey) :
    ∀ {l₁ l₂ : List α}, l₁.Perm l₂ →
      l₁.Sorted (fun a b => key a ≤ key b) →
      l₂.Sorted (fun a b => key a ≤ key b) →
      (l₁.map key).Nodup → l₁ = l₂ := by
  intro l₁
  induction l₁ with
  | nil =>
    intro l₂ hp _ _ _
    exact (hp.nil_eq)
  | cons x xs ih =>
    intro l₂ hp hs₁ hs₂ hnd
    match l₂ with
    | [] => exact absurd hp.symm.nil_eq (by simp)
    | y :: ys =>
      have hxy : x = y := by
        have hy₁ : y ∈ x :: xs := hp.symm.subset (List.mem_cons_self _ _)
        rcases List.mem_cons.mp hy₁ with h | hyxs
        · exact h.symm
        · -- y occurs in the tail of l₁: its key equals x's key, contradicting nodup
          have hx₂ : x ∈ y :: ys := hp.subset (List.mem_cons_self _ _)
          have hkxy : key x ≤ key y := List.rel_of_sorted_cons hs₁ y hyxs
          have hkyx : key y ≤ key x := by
            rcases List.mem_cons.mp hx₂ with h | hxys
            · exact h ▸ le_refl _
            · exact List.rel_of_sorted_cons hs₂ x hxys
          have hk : key x = key y := le_antisymm hkxy hkyx
          have : key x ∈ xs.map key := hk ▸ List.mem_map_of_mem key hyxs
          exact absurd this ((List.nodup_cons.mp hnd).1 ∘ by simp +contextual [eq_comm])
      subst hxy
      have htail : xs.Perm ys := hp.cons_inv
      have := ih htail hs₁.of_cons hs₂.of_cons (List.nodup_cons.mp hnd).2
      rw [this]

/-! ## The data model

`AtomTypeR` mirrors `gmso/core/atom_type.py`'s `AtomType`: a named potential
(expression text, independent variables, parameter dictionary) plus the extra
scalar attributes.  Python sets (`independent_variables`, `overrides`, dict key
views) are carried as lists and compared with set semantics; the `sympy`
expression is carried as its source text (sympy equality is structural).
Parameter values are the unit-normalized magnitudes, as `ℚ`. -/

structure AtomTypeR where
  name : String := "AtomType"
  expression : String := "4*epsilon*((sigma/r)**12 - (sigma/r)**6)"
  independent_variables : List String := ["r"]
  parameters : List (String × ℚ) := [("sigma", 3/10), ("epsilon", 3/10)]
  mass : ℚ := 0
  charge : ℚ := 0
  atomclass : String := ""
  doi : String := ""
  overrides : List String := []
  definition : String := ""
  description : String := ""
deriving DecidableEq, Repr

/-- Modelled from the spec: `unyt_compare`/`allclose_units_mixed`
(`gmso/utils/misc.py`, not under `src/`) compares two unit-normalized values
with numpy's default closeness (`rtol = 1e-5`, `atol = 1e-8`). -/
def qClose (x y : ℚ) : Bool := |x - y| ≤ 1/100000000 + |y| / 100000

/-- Python set equality of two lists of strings (`set1 == set2`, dict key view
equality). -/
def listSetEq (p q : List String) : Bool :=
  p.all q.contains && q.all p.contains

/-- `unyt_compare(self.parameters.values(), other.parameters.values())`: the two
value sequences zipped in dictionary order, each pair compared with `allclose`. -/
def paramValuesClose (p q : List (String × ℚ)) : Bool :=
  ((p.map Prod.snd).zip (q.map Prod.snd)).all fun vw => qClose vw.1 vw.2

/-- `AtomType.__eq__` from `gmso/core/atom_type.py`: name, expression,
independent variables, parameter keys, unyt-compared parameter values, charge,
atomclass, mass, doi, overrides, definition and description, in source order. -/
def aeq (a b : AtomTypeR) : Bool :=
  (a.name == b.name)
  && (a.expression == b.expression)
  && listSetEq a.independent_variables b.independent_variables
  && listSetEq (a.parameters.map Prod.fst) (b.parameters.map Prod.fst)
  && paramValuesClose a.parameters b.parameters
  && (a.charge == b.charge)
  && (a.atomclass == b.atomclass)
  && (a.mass == b.mass)
  && (a.doi == b.doi)
  && listSetEq a.overrides b.overrides
  && (a.definition == b.definition)
  && (a.description == b.description)

/-- Python dict lookup `parameters[k]` (first binding of `k`). -/
def paramQ (a : AtomTypeR) (k : String) : Option ℚ :=
  a.parameters.lookup k

/-- Python dict assignment `parameters[k] = v`: overwrite in place if the key
exists, else append (dict insertion order). -/
def setParam (a : AtomTypeR) (k : String) (v : ℚ) : AtomTypeR :=
  { a with parameters :=
      if (a.parameters.map Prod.fst).contains k then
        a.parameters.map fun kv => if kv.1 = k then (k, v) else kv
      else a.parameters ++ [(k, v)] }

/-- A site (`gmso/core/atom.py`'s `Atom`): position, charge, molecule id and an
optional atom type. -/
structure SiteR where
  name : String := "Atom"
  position : ℚ × ℚ × ℚ
  charge : ℚ := 0
  moleculeNumber : ℕ := 0
  atom_type : Option AtomTypeR := none
deriving DecidableEq, Repr

/-- A bond type (`BondType`): its potential's `k` and `r_eq` parameter values
and the pair of member atom-type names. -/
structure BondTypeR where
  name : String := "BondType"
  k : ℚ
  r_eq : ℚ
  member_types : String × String
deriving DecidableEq, Repr

/-- An angle type (`AngleType`): `k`, `theta_eq` and the ordered triple of
member atom-type names (the middle entry is the apex). -/
structure AngleTypeR where
  name : String := "AngleType"
  k : ℚ
  theta_eq : ℚ
  member_types : String × String × String
deriving DecidableEq, Repr

/-- A dihedral type (`DihedralType`) in the OPLS parameterization. -/
structure DihedralTypeR where
  name : String := "DihedralType"
  k1 : ℚ
  k2 : ℚ
  k3 : ℚ
  k4 : ℚ
  member_types : String × String × String × String
deriving DecidableEq, Repr

/-- An improper type (`ImproperType`): `k`, `phi_eq` and the member quadruple
(first entry is the central atom). -/
structure ImproperTypeR where
  name : String := "ImproperType"
  k : ℚ
  phi_eq : ℚ
  member_types : String × String × String × String
deriving DecidableEq, Repr

/-- A bond: two member sites (as indices into `TopologyR.sites`, standing for
the site references; `top.sites.index(site)` then returns the stored index) and
an optional bond type. -/
structure BondR where
  members : List ℕ
  bond_type : Option BondTypeR := none
deriving DecidableEq, Repr

/-- An angle connection. -/
structure AngleR where
  members : List ℕ
  angle_type : Option AngleTypeR := none
deriving DecidableEq, Repr

/-- A dihedral connection. -/
structure DihedralR where
  members : List ℕ
  dihedral_type : Option DihedralTypeR := none
deriving DecidableEq, Repr

/-- An improper connection. -/
structure ImproperR where
  members : List ℕ
  improper_type : Option ImproperTypeR := none
deriving DecidableEq, Repr

/-- A simulation box: three lengths and three angles, in the style's base units
(angles in degrees, as `gmso.Box` defaults to). -/
structure BoxR where
  lengths : ℚ × ℚ × ℚ
  angles : ℚ × ℚ × ℚ := (90, 90, 90)
deriving DecidableEq, Repr

/-- The topology as the writer consumes it.  The `*_types` fields model the
`top.atom_types(filter_by=PotentialFilters.UNIQUE_SORTED_NAMES)` (etc.) views:
the unique type records of each kind, listed in construction order (the views
are not themselves re-sorted; the writer sorts them explicitly). -/
structure TopologyR where
  name : String := ""
  sites : List SiteR := []
  bonds : List BondR := []
  angles : List AngleR := []
  dihedrals : List DihedralR := []
  impropers : List ImproperR := []
  atom_types : List AtomTypeR := []
  bond_types : List BondTypeR := []
  angle_types : List AngleTypeR := []
  dihedral_types : List DihedralTypeR := []
  improper_types : List ImproperTypeR := []
  box : BoxR := { lengths := (1, 1, 1) }
deriving DecidableEq, Repr

/-- Modelled from the spec: `Topology.is_fully_typed` (`gmso/core/topology.py`,
not under `src/`) — every site and every connection carries a resolved type. -/
def is_fully_typed (top : TopologyR) : Bool :=
  top.sites.all (·.atom_type.isSome)
  && top.bonds.all (·.bond_type.isSome)
  && top.angles.all (·.angle_type.isSome)
  && top.dihedrals.all (·.dihedral_type.isSome)
  && top.impropers.all (·.improper_type.isSome)

/-! ## Unit conversion and reduced-unit factors -/

/-- The physical dimension of a converted quantity, as
`LAMMPS_UnitSystems.convert_parameter` infers it from the quantity's own
dimensionality (or from the parameter name for `angle_eq`). -/
inductive Dim
  | length
  | mass
  | charge
  | energy
  | energyPerLength2
  | energyPerAngle2
  | angle
  | angleEq
deriving DecidableEq, Repr

/-- The resolved reduced-unit reference factors (keys `length`, `energy`,
`mass`, `charge` of `lj_cfactorsDict` after `write_lammpsdata` fills them). -/
structure LJFactors where
  length : ℚ
  energy : ℚ
  mass : ℚ
  charge : ℚ
deriving DecidableEq, Repr

/-- The power product of reference factors that non-dimensionalizes a quantity
of dimension `d` (spec §4.1: "divides by the appropriate power of the reference
scale factors"). -/
def ljFactorFor (f : LJFactors) : Dim → ℚ
  | .length => f.length
  | .mass => f.mass
  | .charge => f.charge
  | .energy => f.energy
  | .energyPerLength2 => f.energy / f.length ^ 2
  | .energyPerAngle2 => f.energy
  | .angle => 1
  | .angleEq => 1

/-- Rounding to `n` decimals, `round(q, n)`. -/
def roundDec (n : ℕ) (q : ℚ) : ℚ := (round (q * 10 ^ n) : ℤ) / 10 ^ n

/-- Modelled from the spec: `LAMMPS_UnitSystems.convert_parameter`
(`gmso/utils/units.py`, not under `src/`): convert the quantity to the style's
base unit for its dimension (the identity here, since values are carried in
base units), divide by the reduced-unit reference factors when the style is
`lj` (`cf = some f`), then round to `n_decimals` (default 6 at call sites). -/
def convert_parameter (cf : Option LJFactors) (d : Dim) (nDecimals : ℕ) (v : ℚ) : ℚ :=
  match cf with
  | none => roundDec nDecimals v
  | some f => roundDec nDecimals (v / ljFactorFor f d)

/-- Effectful map over a list in the `Except` monad (the loops of the writer
and of `_default_lj_val`): stops at the first raised exception. -/
def exceptMapM {α β : Type} (f : α → Except Err β) : List α → Except Err (List β)
  | [] => Except.ok []
  | x :: xs => do
    let y ← f x
    let ys ← exceptMapM f xs
    Except.ok (y :: ys)

/-- Python's builtin `max` on a nonempty list of magnitudes; `max([])` raises
`ValueError`. -/
def pyMax (l : List ℚ) : Except Err ℚ :=
  match l with
  | [] => .error .valueError
  | x :: xs => .ok (xs.foldl max x)

/-- Python dict member lookup raising `KeyError` when absent
(`x.parameters["sigma"]`). -/
def paramOrKeyError (a : AtomTypeR) (k : String) : Except Err ℚ :=
  (paramQ a k).elim (Except.error Err.keyError) Except.ok

/-- `_default_lj_val(top, source)` from `gmso/formats/lammpsdata.py`: the
maximum sigma / epsilon / mass / charge over the topology's atom types, or
`ValueError` for any other source key. -/
def _default_lj_val (top : TopologyR) (source : String) : Except Err ℚ :=
  if source = "length" then do
    pyMax (← exceptMapM (paramOrKeyError · "sigma") top.atom_types)
  else if source = "energy" then do
    pyMax (← exceptMapM (paramOrKeyError · "epsilon") top.atom_types)
  else if source = "mass" then
    pyMax (top.atom_types.map (·.mass))
  else if source = "charge" then
    pyMax (top.atom_types.map (·.charge))
  else .error .valueError

/-- One turn of the factor-resolution loop in `write_lammpsdata` for a key `k`
already known to be in `defaultsList`: a truthy user-supplied value is kept; a
falsy (`0`) or missing value falls back to
`lj_cfactorsDict.get(k, _default_lj_val(top, k))` — note Python still computes
`_default_lj_val` (which can raise) and keeps an explicitly supplied `0`. -/
def resolveKey (top : TopologyR) (userDict : List (String × ℚ)) (k : String) :
    Except Err ℚ :=
  match userDict.lookup k with
  | some v =>
    if v ≠ 0 then .ok v
    else do
      let _ ← _default_lj_val top k
      .ok v
  | none => _default_lj_val top k

/-- The `lj` branch of the factor-resolution loop in `write_lammpsdata`
(lines 148–164): iterate `defaultsList + source_factorsList`, raising
`ValueError` on a user key outside `defaultsList`, and filling each default key
by `resolveKey`. -/
def resolveLJ (top : TopologyR) (userDict : List (String × ℚ)) :
    Except Err LJFactors := do
  let lengthF ← resolveKey top userDict "length"
  let energyF ← resolveKey top userDict "energy"
  let massF ← resolveKey top userDict "mass"
  let chargeF ← resolveKey top userDict "charge"
  if (userDict.map Prod.fst).all (["length", "energy", "mass", "charge"].contains ·) then
    .ok { length := lengthF, energy := energyF, mass := massF, charge := chargeF }
  else .error .valueError

/-- Modelled from the spec: `Topology.convert_potential_styles` as invoked by
`_try_default_potential_conversions` with `default_parameterMaps`, restricted to
the identity case the claims exercise — a type collection whose members already
carry the accepted template for their kind is left unchanged; any other
collection is reported as having no modelled conversion path
(`IncompatiblePotentialError`); a kind with connections but no types raises
`AttributeError`.  This is the `impropers` turn of the loop. -/
def convCheckImpropers (top : TopologyR) : Option Err :=
  if top.improper_types ≠ [] then
    if top.improper_types.all (·.name = "HarmonicImproperPotential") then none
    else some .incompatiblePotential
  else if top.impropers ≠ [] then some .attributeError
  else none

/-- The `dihedrals` turn of `_try_default_potential_conversions`. -/
def convCheckDihedrals (top : TopologyR) : Option Err :=
  if top.dihedral_types ≠ [] then
    if top.dihedral_types.all (·.name = "OPLSTorsionPotential") then none
    else some .incompatiblePotential
  else if top.dihedrals ≠ [] then some .attributeError
  else none

/-- The `angles` turn of `_try_default_potential_conversions`. -/
def convCheckAngles (top : TopologyR) : Option Err :=
  if top.angle_types ≠ [] then
    if top.angle_types.all (·.name = "LAMMPSHarmonicAnglePotential") then none
    else some .incompatiblePotential
  else if top.angles ≠ [] then some .attributeError
  else none

/-- The `bonds` turn of `_try_default_potential_conversions`. -/
def convCheckBonds (top : TopologyR) : Option Err :=
  if top.bond_types ≠ [] then
    if top.bond_types.all (·.name = "LAMMPSHarmonicBondPotential") then none
    else some .incompatiblePotential
  else if top.bonds ≠ [] then some .attributeError
  else none

/-- The four turns in `default_parameterMaps` dictionary order (impropers,
dihedrals, angles, bonds), raising the first failure; on success the topology
is returned unchanged (the identity case of the modelled conversion). -/
def _try_default_potential_conversions (top : TopologyR) : Except Err TopologyR :=
  match convCheckImpropers top with
  | some e => .error e
  | none =>
    match convCheckDihedrals top with
    | some e => .error e
    | none =>
      match convCheckAngles top with
      | some e => .error e
      | none =>
        match convCheckBonds top with
        | some e => .error e
        | none => .ok top

/-! ## The written file

One `Line` constructor per formatted output line of the writer.  Number fields
carry the already-converted values the format string interpolates; the
environment-dependent header fields (user name, timestamp) are I/O details that
are constant within any single comparison of two writes and are omitted. -/

inductive Line
  | banner (topname : String)
  | blank
  | countAtoms (n : ℕ)
  | countBonds (n : ℕ)
  | countAngles (n : ℕ)
  | countDihedrals (n : ℕ)
  | countImpropers (n : ℕ)
  | countAtomTypes (n : ℕ)
  | countBondTypes (n : ℕ)
  | countAngleTypes (n : ℕ)
  | countDihedralTypes (n : ℕ)
  | countImproperTypes (n : ℕ)
  | boxBound (lo hi : ℚ) (dim : String)
  | boxTilts (xy xz yz : ℚ)
  | boxTriclinic (b : BoxR)
  | sectionHeader (title : String)
  | comment (s : String)
  | paramLabels (keys : List String)
  | massRow (idx : ℕ) (mass : ℚ) (name : String)
  | pairRow (idx : ℕ) (epsilon sigma : ℚ) (name : String)
  | bondCoeffRow (idx : ℕ) (k r_eq : ℚ) (t1 t2 : String)
  | angleCoeffRow (idx : ℕ) (k theta_eq : ℚ) (ts : List String)
  | dihedralCoeffRow (idx : ℕ) (k1 k2 k3 k4 : ℚ) (ts : List String)
  | improperCoeffRow (idx : ℕ) (k phi_eq : ℚ)
  | atomRowAtomic (idx typeIdx : ℕ) (x y z : ℚ)
  | atomRowCharge (idx typeIdx : ℕ) (charge x y z : ℚ)
  | atomRowMolecular (idx mol typeIdx : ℕ) (x y z : ℚ)
  | atomRowFull (idx mol typeIdx : ℕ) (charge x y z : ℚ)
  | connRow (idx typeIdx : ℕ) (members : List ℕ)
deriving DecidableEq, Repr

/-- `_write_header`: banner, entity counts (connection counts only for the
`full`/`molecular` atom styles), type counts (connection type counts only when
the kind is populated and the style is `full`/`molecular`). -/
def _write_header (top : TopologyR) (atom_style : String) : List Line :=
  [Line.banner top.name, Line.blank, Line.countAtoms top.sites.length]
  ++ (if atom_style ∈ ["full", "molecular"] then
        [Line.countBonds top.bonds.length, Line.countAngles top.angles.length,
         Line.countDihedrals top.dihedrals.length,
         Line.countImpropers top.impropers.length, Line.blank]
      else [])
  ++ [Line.countAtomTypes top.atom_types.length]
  ++ (if top.bonds.length > 0 ∧ atom_style ∈ ["full", "molecular"] then
        [Line.countBondTypes top.bond_types.length] else [])
  ++ (if top.angles.length > 0 ∧ atom_style ∈ ["full", "molecular"] then
        [Line.countAngleTypes top.angle_types.length] else [])
  ++ (if top.dihedrals.length > 0 ∧ atom_style ∈ ["full", "molecular"] then
        [Line.countDihedralTypes top.dihedral_types.length] else [])
  ++ (if top.impropers.length > 0 ∧ atom_style ∈ ["full", "molecular"] then
        [Line.countImproperTypes top.improper_types.length] else [])
  ++ [Line.blank]

/-- `_write_box`: the orthogonal branch (`allclose(angles, 90°)`, modelled as
exact equality on the carried degree values) emits zero-based bounds and a zero
tilt line; the triclinic branch's bound/tilt computation involves square roots
and is modelled over `ℝ` below (`_write_box_triclinic`), so the structured file
carries the box itself. -/
def _write_box (top : TopologyR) (cf : Option LJFactors) : List Line :=
  if top.box.angles = (90, 90, 90) then
    [Line.boxBound 0 (convert_parameter cf .length 6 top.box.lengths.1) "x",
     Line.boxBound 0 (convert_parameter cf .length 6 top.box.lengths.2.1) "y",
     Line.boxBound 0 (convert_parameter cf .length 6 top.box.lengths.2.2) "z",
     Line.boxTilts 0 0 0]
  else [Line.boxTriclinic top.box]

/-- `_write_atomtypes`: the Masses section, atom types sorted by name. -/
def _write_atomtypes (top : TopologyR) (cf : Option LJFactors) : List Line :=
  let atypesView := pySorted (fun a => [strKey a.name]) top.atom_types
  [Line.sectionHeader "Masses", Line.comment "mass"]
  ++ atypesView.map fun t =>
      Line.massRow ((atypesView.findIdx (fun e => aeq e t)) + 1)
        (convert_parameter cf .mass 6 t.mass) t.name

/-- `top.sites[0].atom_type` with Python's `IndexError`/`AttributeError`. -/
def firstSiteType (top : TopologyR) : Except Err AtomTypeR :=
  match top.sites with
  | [] => Except.error Err.indexError
  | st :: _ => st.atom_type.elim (Except.error Err.attributeError) Except.ok

/-- `top.bonds[0].bond_type` with Python's `IndexError`/`AttributeError`. -/
def firstBondType (top : TopologyR) : Except Err BondTypeR :=
  match top.bonds with
  | [] => Except.error Err.indexError
  | b :: _ => b.bond_type.elim (Except.error Err.attributeError) Except.ok

/-- `top.angles[0].angle_type` with Python's `IndexError`/`AttributeError`. -/
def firstAngleType (top : TopologyR) : Except Err AngleTypeR :=
  match top.angles with
  | [] => Except.error Err.indexError
  | a :: _ => a.angle_type.elim (Except.error Err.attributeError) Except.ok

/-- `top.dihedrals[0].dihedral_type` with Python's errors. -/
def firstDihedralType (top : TopologyR) : Except Err DihedralTypeR :=
  match top.dihedrals with
  | [] => Except.error Err.indexError
  | d :: _ => d.dihedral_type.elim (Except.error Err.attributeError) Except.ok

/-- `top.impropers[0].improper_type` with Python's errors. -/
def firstImproperType (top : TopologyR) : Except Err ImproperTypeR :=
  match top.impropers with
  | [] => Except.error Err.indexError
  | i :: _ => i.improper_type.elim (Except.error Err.attributeError) Except.ok

/-- `_write_pairtypes`: the Pair Coeffs section; the header comment carries
`top.sites[0].atom_type.expression`, rows are the name-sorted atom types'
epsilon and sigma at 5 decimals. -/
def _write_pairtypes (top : TopologyR) (cf : Option LJFactors) :
    Except Err (List Line) := do
  let t0 ← firstSiteType top
  let sorted_atomtypes := pySorted (fun a => [strKey a.name]) top.atom_types
  let rows ← exceptMapM (fun it => do
    let eps ← paramOrKeyError it.2 "epsilon"
    let sig ← paramOrKeyError it.2 "sigma"
    Except.ok (Line.pairRow (it.1 + 1) (convert_parameter cf .energy 5 eps)
      (convert_parameter cf .length 5 sig) it.2.name)) sorted_atomtypes.enum
  Except.ok ([Line.sectionHeader "Pair Coeffs", Line.comment t0.expression,
    Line.paramLabels ["epsilon", "sigma"]] ++ rows)

/-- Modelled from the spec: `sort_by_types` (`gmso/utils/sorting.py`, not under
`src/`) for a bond type — the member pair sorted. -/
def sort_by_types_bond (t : BondTypeR) : List String :=
  sortStringsPy [t.member_types.1, t.member_types.2]

/-- Modelled from the spec: `sort_by_types` for an angle type — the outer pair
sorted around the apex member. -/
def sort_by_types_angle (t : AngleTypeR) : List String :=
  [minStr t.member_types.1 t.member_types.2.2, t.member_types.2.1,
   maxStr t.member_types.1 t.member_types.2.2]

/-- Modelled from the spec: `sort_by_types` for a dihedral type — the
lexicographically smaller of the member tuple and its reverse. -/
def sort_by_types_dihedral (t : DihedralTypeR) : List String :=
  let fwd := [t.member_types.1, t.member_types.2.1, t.member_types.2.2.1,
    t.member_types.2.2.2]
  if (fwd.reverse.map strKey) < (fwd.map strKey) then fwd.reverse else fwd

/-- Modelled from the spec: `sort_by_types` for an improper type — the central
member first, the remaining three sorted. -/
def sort_by_types_improper (t : ImproperTypeR) : List String :=
  t.member_types.1 :: sortStringsPy
    [t.member_types.2.1, t.member_types.2.2.1, t.member_types.2.2.2]

/-- `_write_bondtypes`: the Bond Coeffs section; bond types sorted by the
sorted member pair, each row `k` then `r_eq` at 6 decimals with the sorted
member pair as the comment. -/
def _write_bondtypes (top : TopologyR) (cf : Option LJFactors) :
    Except Err (List Line) := do
  let test ← firstBondType top
  let bond_types := pySorted (fun t => (sort_by_types_bond t).map strKey)
    top.bond_types
  let rows := bond_types.enum.map fun it =>
    let ms := sortStringsPy [it.2.member_types.1, it.2.member_types.2]
    Line.bondCoeffRow (it.1 + 1)
      (convert_parameter cf .energyPerLength2 6 it.2.k)
      (convert_parameter cf .length 6 it.2.r_eq)
      (ms.headD "") (ms.getD 1 "")
  Except.ok ([Line.sectionHeader "Bond Coeffs", Line.comment test.name,
    Line.paramLabels ["k", "r_eq"]] ++ rows)

/-- `_write_angletypes`: the Angle Coeffs section; angle types sorted by
`(apex, min(outer), max(outer))`, each row `k` then `theta_eq` at 6 decimals
with the member triple (original order) as the comment. -/
def _write_angletypes (top : TopologyR) (cf : Option LJFactors) :
    Except Err (List Line) := do
  let test ← firstAngleType top
  let indexList := pySorted
    (fun t => [strKey t.member_types.2.1,
      strKey (minStr t.member_types.1 t.member_types.2.2),
      strKey (maxStr t.member_types.1 t.member_types.2.2)])
    top.angle_types
  let rows := indexList.enum.map fun it =>
    Line.angleCoeffRow (it.1 + 1)
      (convert_parameter cf .energyPerAngle2 6 it.2.k)
      (convert_parameter cf .angleEq 6 it.2.theta_eq)
      [it.2.member_types.1, it.2.member_types.2.1, it.2.member_types.2.2]
  Except.ok ([Line.sectionHeader "Angle Coeffs", Line.comment test.name,
    Line.paramLabels ["k", "theta_eq"]] ++ rows)

/-- `_write_dihedraltypes`: the Dihedral Coeffs section; dihedral types sorted
by the `[1, 2, 0, 3]` permutation of their canonical member tuple, rows
`k1..k4` at 6 decimals with the canonical member tuple as the comment. -/
def _write_dihedraltypes (top : TopologyR) (cf : Option LJFactors) :
    Except Err (List Line) := do
  let test ← firstDihedralType top
  let index_membersList := pySorted
    (fun t =>
      let m := sort_by_types_dihedral t
      [strKey (m.getD 1 ""), strKey (m.getD 2 ""), strKey (m.getD 0 ""),
       strKey (m.getD 3 "")])
    top.dihedral_types
  let rows := index_membersList.enum.map fun it =>
    Line.dihedralCoeffRow (it.1 + 1)
      (convert_parameter cf .energy 6 it.2.k1)
      (convert_parameter cf .energy 6 it.2.k2)
      (convert_parameter cf .energy 6 it.2.k3)
      (convert_parameter cf .energy 6 it.2.k4)
      (sort_by_types_dihedral it.2)
  Except.ok ([Line.sectionHeader "Dihedral Coeffs", Line.comment test.name,
    Line.paramLabels ["k1", "k2", "k3", "k4"]] ++ rows)

/-- `_write_impropertypes`: the Improper Coeffs section; improper types sorted
by the identity permutation of their canonical member tuple, rows `k` then
`phi_eq` at 6 decimals (the format string has no member slots). -/
def _write_impropertypes (top : TopologyR) (cf : Option LJFactors) :
    Except Err (List Line) := do
  let test ← firstImproperType top
  let index_membersList := pySorted
    (fun t => (sort_by_types_improper t).map strKey) top.improper_types
  let rows := index_membersList.enum.map fun it =>
    Line.improperCoeffRow (it.1 + 1)
      (convert_parameter cf .energyPerAngle2 6 it.2.k)
      (convert_parameter cf .angleEq 6 it.2.phi_eq)
  Except.ok ([Line.sectionHeader "Improper Coeffs", Line.comment test.name,
    Line.paramLabels ["k", "phi_eq"]] ++ rows)

/-- `_write_site_data`: the Atoms section; one row per site in topology order,
the type index taken from the name-sorted unique atom types via `list.index`
(i.e. `AtomType.__eq__`).  All four field values are computed for every style
(they are keyword arguments of `str.format`); the style only selects the row
layout. -/
def _write_site_data (top : TopologyR) (atom_style : String)
    (cf : Option LJFactors) : Except Err (List Line) := do
  let unique_sorted_typesList := pySorted (fun a => [strKey a.name]) top.atom_types
  let rows ← exceptMapM (fun isite => do
    let site := isite.2
    let t ← site.atom_type.elim (Except.error Err.valueError) Except.ok
    let j ← (unique_sorted_typesList.findIdx? (fun e => aeq e t)).elim
      (Except.error Err.valueError) Except.ok
    let q := convert_parameter cf .charge 6 site.charge
    let x := convert_parameter cf .length 6 site.position.1
    let y := convert_parameter cf .length 6 site.position.2.1
    let z := convert_parameter cf .length 6 site.position.2.2
    Except.ok (match atom_style with
      | "atomic" => Line.atomRowAtomic (isite.1 + 1) (j + 1) x y z
      | "charge" => Line.atomRowCharge (isite.1 + 1) (j + 1) q x y z
      | "molecular" =>
        Line.atomRowMolecular (isite.1 + 1) site.moleculeNumber (j + 1) x y z
      | _ => Line.atomRowFull (isite.1 + 1) site.moleculeNumber (j + 1) q x y z))
    top.sites.enum
  Except.ok (Line.sectionHeader "Atoms" :: Line.comment atom_style ::
    Line.blank :: rows)

/-- `_write_conn_data` for one connection kind: the canonical type-key list
(`map(sort_by_types, types)` sorted by the kind's ordering function), then one
row per connection in topology order, the type index found by `list.index` on
the canonical key of the connection's own type, members as 1-based site
indices. -/
def connDataLines (sectionName : String) (orderKey : List String → SKey)
    (sbTypeList : List (List String))
    (conns : List (Option (List String) × List ℕ)) : Except Err (List Line) := do
  let indexList := pySorted orderKey sbTypeList
  let rows ← exceptMapM (fun ic => do
    let ct ← ic.2.1.elim (Except.error Err.attributeError) Except.ok
    let j ← (indexList.indexOf? ct).elim (Except.error Err.valueError) Except.ok
    Except.ok (Line.connRow (ic.1 + 1) (j + 1) (ic.2.2.map (· + 1)))) conns.enum
  Except.ok (Line.sectionHeader sectionName :: Line.blank :: rows)

/-- `_write_conn_data` dispatched on `"bonds"` (`sorting_funcDict` key `None`:
sort by the canonical key itself). -/
def _write_bonds_data (top : TopologyR) : Except Err (List Line) :=
  connDataLines "Bonds" (fun l => l.map strKey)
    (top.bond_types.map sort_by_types_bond)
    (top.bonds.map fun b => (b.bond_type.map sort_by_types_bond, b.members))

/-- `_write_conn_data` dispatched on `"angles"` (`_angle_order_sorter`,
permutation `[1, 0, 2]`). -/
def _write_angles_data (top : TopologyR) : Except Err (List Line) :=
  connDataLines "Angles"
    (fun l => [strKey (l.getD 1 ""), strKey (l.getD 0 ""), strKey (l.getD 2 "")])
    (top.angle_types.map sort_by_types_angle)
    (top.angles.map fun a => (a.angle_type.map sort_by_types_angle, a.members))

/-- `_write_conn_data` dispatched on `"dihedrals"` (`_dihedral_order_sorter`,
permutation `[1, 2, 0, 3]`). -/
def _write_dihedrals_data (top : TopologyR) : Except Err (List Line) :=
  connDataLines "Dihedrals"
    (fun l => [strKey (l.getD 1 ""), strKey (l.getD 2 ""), strKey (l.getD 0 ""),
      strKey (l.getD 3 "")])
    (top.dihedral_types.map sort_by_types_dihedral)
    (top.dihedrals.map fun d =>
      (d.dihedral_type.map sort_by_types_dihedral, d.members))

/-- `_write_conn_data` dispatched on `"impropers"` (`_improper_order_sorter`,
identity permutation). -/
def _write_impropers_data (top : TopologyR) : Except Err (List Line) :=
  connDataLines "Impropers" (fun l => l.map strKey)
    (top.improper_types.map sort_by_types_improper)
    (top.impropers.map fun i =>
      (i.improper_type.map sort_by_types_improper, i.members))

/-- `if <kind nonempty> then <write the section> else <no output>`, as the body
sequences its optional sections. -/
def iteSection (c : Prop) [Decidable c] (m : Except Err (List Line)) :
    Except Err (List Line) :=
  if c then m else pure []

/-- The type-coefficient sections of the body of `write_lammpsdata`: Masses,
Pair Coeffs, and one coefficient section per nonempty connection-type view. -/
def writeTypeSections (top : TopologyR) (cf : Option LJFactors) :
    Except Err (List Line) := do
  let m := _write_atomtypes top cf
  let p ← _write_pairtypes top cf
  let b ← iteSection (top.bond_types ≠ []) (_write_bondtypes top cf)
  let a ← iteSection (top.angle_types ≠ []) (_write_angletypes top cf)
  let d ← iteSection (top.dihedral_types ≠ []) (_write_dihedraltypes top cf)
  let i ← iteSection (top.improper_types ≠ []) (_write_impropertypes top cf)
  pure (m ++ p ++ b ++ a ++ d ++ i)

/-- The writes performed on the opened file in source order: header, box, the
type sections (only for a fully typed topology), the Atoms section, and one
data section per nonempty connection kind, regardless of `atom_style`. -/
def writeBody (top : TopologyR) (atom_style : String) (cf : Option LJFactors) :
    Except Err (List Line) := do
  let typeSections ← iteSection (is_fully_typed top) (writeTypeSections top cf)
  let siteSection ← _write_site_data top atom_style cf
  let bondSection ← iteSection (top.bonds ≠ []) (_write_bonds_data top)
  let angleSection ← iteSection (top.angles ≠ []) (_write_angles_data top)
  let dihedralSection ← iteSection (top.dihedrals ≠ []) (_write_dihedrals_data top)
  let improperSection ← iteSection (top.impropers ≠ []) (_write_impropers_data top)
  pure (_write_header top atom_style ++ _write_box top cf ++ typeSections
    ++ siteSection ++ bondSection ++ angleSection ++ dihedralSection
    ++ improperSection)

/-- Python truthiness of the `lj_cfactorsDict` argument (`None` and `{}` are
falsy). -/
def dictTruthy (d : Option (List (String × ℚ))) : Bool :=
  match d with
  | none => false
  | some l => ¬ l.isEmpty

/-- `write_lammpsdata(top, filename, atom_style, unit_style, strict_potentials
= False, strict_units = False, lj_cfactorsDict)`: validate the atom style, the
unit style and the style/cfactors combination (raising `ValueError` before the
file is opened, created or modified — an `.error` result carries no output
lines), convert potentials to the accepted templates, resolve reduced-unit
factors for the `lj` style, then write the file body. -/
def write_lammpsdata (top : TopologyR) (atom_style : String)
    (unit_style : String) (lj_cfactorsDict : Option (List (String × ℚ))) :
    Except Err (List Line) := do
  if atom_style ∉ writeAtomStyles then throw .valueError
  if unit_style ∉ unitStyles then throw .valueError
  if unit_style ≠ "lj" ∧ dictTruthy lj_cfactorsDict then throw .valueError
  let top ← _try_default_potential_conversions top
  let cf ← if unit_style ≠ "lj" then pure none
    else do
      let f ← resolveLJ top (lj_cfactorsDict.getD [])
      pure (some f)
  writeBody top atom_style cf

/-! ## The reader -/

/-- The argument-validation prefix of `read_lammpsdata` (lines 237–260): only
`atom_style = "full"` and the eight unit styles are accepted; the `ValueError`
is raised before the file is opened (`_get_box_coordinates` performs the first
`open`). -/
def read_lammpsdata_validate (atom_style unit_style : String) : Option Err :=
  if atom_style ∉ ["full"] then some .valueError
  else if unit_style ∉ unitStyles then some .valueError
  else none

/-- `get_units(base_unyts, "energy")`. -/
def energyU (style : String) : LUnit := get_units style "energy"

/-- `get_units(base_unyts, "length")`. -/
def lengthU (style : String) : LUnit := get_units style "length"

/-- `get_units(base_unyts, "angle")`. -/
def angleU (style : String) : LUnit := get_units style "angle"

/-- `get_units(base_unyts, "angle_eq")`. -/
def angleEqU (style : String) : LUnit := get_units style "angle_eq"

/-- Python `line.split()[i]` over an already-tokenized numeric row, raising
`IndexError` past the end. -/
def tok (row : List ℚ) (i : ℕ) : Except Err ℚ :=
  (row.get? i).elim (Except.error Err.indexError) Except.ok

/-- A bond type as `_get_connection` builds it from one Bond Coeffs row. -/
structure ReadBondType where
  name : String
  k : Quantity
  r_eq : Quantity
deriving DecidableEq, Repr

/-- An angle type as `_get_connection` builds it from one Angle Coeffs row. -/
structure ReadAngleType where
  name : String
  k : Quantity
  theta_eq : Quantity
deriving DecidableEq, Repr

/-- A dihedral type as `_get_connection` builds it from one Dihedral Coeffs
row. -/
structure ReadDihedralType where
  name : String
  k1 : Quantity
  k2 : Quantity
  k3 : Quantity
  k4 : Quantity
deriving DecidableEq, Repr

/-- An improper type as `_get_connection` builds it from one Improper Coeffs
row. -/
structure ReadImproperType where
  name : String
  k : Quantity
  phi_eq : Quantity
deriving DecidableEq, Repr

/-- The `connection_type == "bond"` branch of `_get_connection`:
`k = float(split[1]) * energy / length**2 * 2` ("Multiply 'k' by 2 since LAMMPS
includes 1/2 in the term"), `r_eq = float(split[2]) * length`, on the
`LAMMPSHarmonicBondPotential` template. -/
def readBondCoeffRow (style : String) (row : List ℚ) :
    Except Err ReadBondType := do
  let v1 ← tok row 1
  let v2 ← tok row 2
  Except.ok
    { name := "LAMMPSHarmonicBondPotential"
      k := ⟨v1 * 2, .div (energyU style) (.pow (lengthU style) 2)⟩
      r_eq := ⟨v2, lengthU style⟩ }

/-- The `connection_type == "angle"` branch of `_get_connection`:
`k = float(split[1]) * energy / angle**2 * 2`,
`theta_eq = float(split[2]) * angle_eq`, on the
`LAMMPSHarmonicAnglePotential` template. -/
def readAngleCoeffRow (style : String) (row : List ℚ) :
    Except Err ReadAngleType := do
  let v1 ← tok row 1
  let v2 ← tok row 2
  Except.ok
    { name := "LAMMPSHarmonicAnglePotential"
      k := ⟨v1 * 2, .div (energyU style) (.pow (angleU style) 2)⟩
      theta_eq := ⟨v2, angleEqU style⟩ }

/-- The `connection_type == "dihedral"` branch of `_get_connection`:
`k1..k4 = float(split[1..4]) * energy`, on the `OPLSTorsionPotential`
template. -/
def readDihedralCoeffRow (style : String) (row : List ℚ) :
    Except Err ReadDihedralType := do
  let v1 ← tok row 1
  let v2 ← tok row 2
  let v3 ← tok row 3
  let v4 ← tok row 4
  Except.ok
    { name := "OPLSTorsionPotential"
      k1 := ⟨v1, energyU style⟩, k2 := ⟨v2, energyU style⟩
      k3 := ⟨v3, energyU style⟩, k4 := ⟨v4, energyU style⟩ }

/-- The `connection_type == "improper"` branch of `_get_connection`, transcribed
as written: `k = float(split[2]) * energy / energy**2 * 2` and
`phi_eq = float(split[3]) * angle_eq`, on the `HarmonicImproperPotential`
template (note the column offsets 2/3 and the energy-squared denominator both
come from the source). -/
def readImproperCoeffRow (style : String) (row : List ℚ) :
    Except Err ReadImproperType := do
  let v2 ← tok row 2
  let v3 ← tok row 3
  Except.ok
    { name := "HarmonicImproperPotential"
      k := ⟨v2 * 2, .div (energyU style) (.pow (energyU style) 2)⟩
      phi_eq := ⟨v3, angleEqU style⟩ }

/-- The Masses loop of `_get_ff_information`, applied to one written mass line:
`AtomType(name=line.split()[0], mass=float(line.split()[1]) * mass_unit)` — the
type's name is read from the first whitespace token, which is the written
1-based type index, not the original type name (that name only survives in the
trailing comment, which is ignored). -/
def readAtomTypeOfMassLine (l : Line) : Except Err AtomTypeR :=
  match l with
  | .massRow idx mass _name => Except.ok { name := toString idx, mass := mass }
  | _ => Except.error Err.valueError

/-- The Pair Coeffs loop of `_get_ff_information` (`for i, pair in
enumerate(pair_lines)`): a three-token row writes `sigma` (token 2) then
`epsilon` (token 1) into `type_list[i]`; a four-token row only sets the
LJ-cutoff warning flag (`warn_ljcutBool`) and touches nothing; any other length
is skipped silently.  Returns the updated type list and the warning flag; the
`IndexError` models a three-token row beyond the end of `type_list`. -/
def pairLoop : List AtomTypeR → List (List ℚ) →
    Except Err (List AtomTypeR × Bool)
  | ts, [] => Except.ok (ts, false)
  | [], p :: rest =>
    if p.length = 3 then Except.error Err.indexError
    else do
      let (ts', w) ← pairLoop [] rest
      Except.ok (ts', w || decide (p.length = 4))
  | t :: ts, p :: rest =>
    if p.length = 3 then do
      let t' := setParam (setParam t "sigma" (p.getD 2 0)) "epsilon" (p.getD 1 0)
      let (ts', w) ← pairLoop ts rest
      Except.ok (t' :: ts', w)
    else do
      let (ts', w) ← pairLoop ts rest
      Except.ok (t :: ts', w || decide (p.length = 4))

/-! ## The triclinic box transforms, over `ℝ`

`_write_box`'s triclinic branch and `_get_box_coordinates`' triclinic branch
move between (lengths, angles) and (bounds, tilt factors) with square roots and
inverse cosines; these are modelled over the reals (the `.6f` formatting of the
emitted bounds is a float-printing detail outside this model). -/

/-- The nine numbers of the triclinic bound/tilt lines
(`xlo xhi / ylo yhi / zlo zhi / xy xz yz`). -/
structure TriclinicBounds where
  xlo_bound : ℝ
  xhi_bound : ℝ
  ylo_bound : ℝ
  yhi_bound : ℝ
  zlo_bound : ℝ
  zhi_bound : ℝ
  xy : ℝ
  xz : ℝ
  yz : ℝ

/-- The triclinic branch of `_write_box` for a box with lengths `a b c` and
angles `alpha beta gamma` (radians).  The box vectors come from
`Box.get_unit_vectors` — modelled from the spec (`gmso/core/box.py` is not
under `src/`): the standard crystallographic cell
`u₁ = (1,0,0)`, `u₂ = (cos γ, sin γ, 0)`,
`u₃ = (cos β, (cos α − cos β cos γ)/sin γ, √(1 − cos²β − m²))` — scaled by the
lengths; the writer then takes `xhi = v₁ₓ`, `yhi = v₂ᵧ`, `zhi = v₃𝓏`,
`xy = v₂ₓ`, `xz = v₃ₓ`, `yz = v₃ᵧ` and pads the bounds by the min/max of the
tilt combinations exactly as in the source. -/
noncomputable def _write_box_triclinic (a b c alpha beta gamma : ℝ) :
    TriclinicBounds :=
  let xy := b * Real.cos gamma
  let xz := c * Real.cos beta
  let m := (Real.cos alpha - Real.cos beta * Real.cos gamma) / Real.sin gamma
  let yz := c * m
  let xhi := a
  let yhi := b * Real.sin gamma
  let zhi := c * Real.sqrt (1 - Real.cos beta ^ 2 - m ^ 2)
  { xlo_bound := 0 + min (min 0 xy) (min xz (xy + xz))
    xhi_bound := xhi + max (max 0 xy) (max xz (xy + xz))
    ylo_bound := 0 + min 0 yz
    yhi_bound := yhi + max 0 yz
    zlo_bound := 0
    zhi_bound := zhi
    xy := xy, xz := xz, yz := yz }

/-- The triclinic branch of `_get_box_coordinates`: undo the bound padding,
then recover `(a, b, c)` and `(alpha, beta, gamma)` by the closed-form
transform of the source. -/
noncomputable def _get_box_coordinates_triclinic (t : TriclinicBounds) :
    (ℝ × ℝ × ℝ) × (ℝ × ℝ × ℝ) :=
  let xhi := t.xhi_bound - max (max 0 t.xy) (max t.xz (t.xy + t.xz))
  let xlo := t.xlo_bound - min (min 0 t.xy) (min t.xz (t.xy + t.xz))
  let yhi := t.yhi_bound - max 0 t.yz
  let ylo := t.ylo_bound - min 0 t.yz
  let zhi := t.zhi_bound
  let zlo := t.zlo_bound
  let lx := xhi - xlo
  let ly := yhi - ylo
  let lz := zhi - zlo
  let c := Real.sqrt (lz ^ 2 + t.xz ^ 2 + t.yz ^ 2)
  let b := Real.sqrt (ly ^ 2 + t.xy ^ 2)
  let a := lx
  let alpha := Real.arccos ((t.yz * ly + t.xy * t.xz) / (b * c))
  let beta := Real.arccos (t.xz / c)
  let gamma := Real.arccos (t.xy / b)
  ((a, b, c), (alpha, beta, gamma))

/-! ## Claim C7: structural equality of type records -/

theorem qClose_self (v : ℚ) : qClose v v = true := by
  simp only [qClose, sub_self, abs_zero, decide_eq_true_eq]
  positivity

theorem listSetEq_refl (l : List String) : listSetEq l l = true := by
  simp only [listSetEq, Bool.and_eq_true, List.all_eq_true]
  exact ⟨fun k hk => List.elem_iff.mpr hk, fun k hk => List.elem_iff.mpr hk⟩

theorem paramValuesClose_self (p : List (String × ℚ)) :
    paramValuesClose p p = true := by
  induction p with
  | nil => rfl
  | cons x xs ih =>
    simp only [paramValuesClose, List.map_cons, List.zip_cons_cons,
      List.all_cons, Bool.and_eq_true] at ih ⊢
    exact ⟨qClose_self x.2, ih⟩

/-- **C7 (amended)**: two separately constructed `AtomType`s with identical
name, expression, independent variables and parameter dictionary compare equal
under `AtomType.__eq__` **iff additionally** their mass, charge, atomclass,
doi, overrides (as sets), definition and description agree — equality is not
determined by the structural content alone, contrary to "regardless of any
other attributes" (the legacy `topology/core` version likewise hashes mass and
charge into its equality). -/
theorem C7_eq_iff_all_attributes (a b : AtomTypeR)
    (h1 : a.name = b.name) (h2 : a.expression = b.expression)
    (h3 : a.independent_variables = b.independent_variables)
    (h4 : a.parameters = b.parameters) :
    aeq a b = true ↔
      (a.mass = b.mass ∧ a.charge = b.charge ∧ a.atomclass = b.atomclass
        ∧ a.doi = b.doi ∧ listSetEq a.overrides b.overrides = true
        ∧ a.definition = b.definition ∧ a.description = b.description) := by
  constructor
  · intro h
    simp only [aeq, Bool.and_eq_true, beq_iff_eq] at h
    tauto
  · rintro ⟨hm, hc, hac, hd, ho, hdef, hdesc⟩
    simp only [aeq, Bool.and_eq_true, beq_iff_eq, h1, h2, h3, h4, hm, hc, hac,
      hd, ho, hdef, hdesc, listSetEq_refl, paramValuesClose_self, and_true,
      true_and, and_self]

/-! ## Claim C8: the Pair Coeffs parsing loop -/

/-- The effect of one pair-coefficient row on its atom type: a three-token row
writes `sigma` (token 2) and `epsilon` (token 1); every other row — including
the four-token cutoff rows — leaves the type unchanged. -/
def pairRowApply (t : AtomTypeR) (p : List ℚ) : AtomTypeR :=
  if p.length = 3 then
    setParam (setParam t "sigma" (p.getD 2 0)) "epsilon" (p.getD 1 0)
  else t

/-- **C8 (amended)**: when the pair table has at most one row per atom type,
the loop never raises; each three-token row sets that type's `sigma` and
`epsilon`, each four-token row merely raises the non-fatal cutoff warning flag
while the whole row is dropped — its first two parameters are *not* read into
the atom type. -/
theorem C8_pair_loop_spec (ts : List AtomTypeR) (ps : List (List ℚ))
    (h : ps.length ≤ ts.length) :
    pairLoop ts ps =
      Except.ok (List.zipWith pairRowApply ts ps ++ ts.drop ps.length,
        ps.any fun p => decide (p.length = 4)) := by
  induction ps generalizing ts with
  | nil => simp [pairLoop]
  | cons p ps ih =>
    match ts with
    | [] => simp at h
    | t :: ts =>
      simp only [List.length_cons, Nat.succ_le_succ_iff] at h
      by_cases hp : p.length = 3
      · simp [pairLoop, hp, ih ts h, pairRowApply, Bind.bind, Except.bind]
      · simp [pairLoop, hp, ih ts h, pairRowApply, Bind.bind, Except.bind,
          Bool.or_comm]

/-! ## Claim C6: the `angle_eq` / `angle` unit divergence -/

theorem readAngleCoeffRow_theta_eq_unit (s : String) (row : List ℚ)
    (t : ReadAngleType) (h : readAngleCoeffRow s row = .ok t) :
    t.theta_eq.unit = get_units s "angle_eq" := by
  simp only [readAngleCoeffRow, tok, Bind.bind, Except.bind] at h
  split at h
  · cases h
  · split at h
    · cases h
    · cases h
      rfl

theorem readImproperCoeffRow_phi_eq_unit (s : String) (row : List ℚ)
    (t : ReadImproperType) (h : readImproperCoeffRow s row = .ok t) :
    t.phi_eq.unit = get_units s "angle_eq" := by
  simp only [readImproperCoeffRow, tok, Bind.bind, Except.bind] at h
  split at h
  · cases h
  · split at h
    · cases h
    · cases h
      rfl

/-- **C6**: in every supported unit style the `angle_eq` unit differs from the
`angle` unit; every non-`lj` style maps `angle_eq` to the degree while `angle`
goes through the style's base-unit table (whose angle entry is the radian); the
reader attaches the `angle_eq` unit to the equilibrium angles `theta_eq` and
`phi_eq` it builds.  The divergence also holds — in its own way — for the `lj`
style, where `angle_eq` falls into the dimensionless bucket while `angle` is
special-cased to the radian. -/
theorem C6_angle_eq_divergence (s : String) (hs : s ∈ unitStyles) :
    get_units s "angle_eq" ≠ get_units s "angle"
    ∧ (s ≠ "lj" → get_units s "angle_eq" = LUnit.degree
        ∧ get_units s "angle" = usystemBase s "angle"
        ∧ usystemBase s "angle" = LUnit.radian)
    ∧ (s = "lj" → get_units s "angle_eq" = LUnit.dimensionless
        ∧ get_units s "angle" = LUnit.radian)
    ∧ (∀ row t, readAngleCoeffRow s row = .ok t →
        t.theta_eq.unit = get_units s "angle_eq")
    ∧ (∀ row t, readImproperCoeffRow s row = .ok t →
        t.phi_eq.unit = get_units s "angle_eq") := by
  refine ⟨?_, ?_, ?_, fun row t h => readAngleCoeffRow_theta_eq_unit s row t h,
    fun row t h => readImproperCoeffRow_phi_eq_unit s row t h⟩
  · fin_cases hs <;> decide
  · fin_cases hs <;> decide
  · fin_cases hs <;> decide

/-! ## Claim C5: configuration errors fail before the file is touched -/

/-- **C5**: `write_lammpsdata` raises `ValueError` for an unsupported atom
style, an unsupported unit style, or a truthy `lj_cfactorsDict` combined with a
non-`lj` unit style; `read_lammpsdata` raises `ValueError` for any atom style
other than `full` or an unsupported unit style.  In each case the result is the
bare error — the validation stands before the first `open` in the source, so no
output line is produced and the named file is not opened, created or
modified. -/
theorem C5_config_errors_fail_fast (top : TopologyR) (atom_style unit_style : String)
    (d : Option (List (String × ℚ))) :
    (atom_style ∉ writeAtomStyles →
      write_lammpsdata top atom_style unit_style d = .error .valueError)
    ∧ (unit_style ∉ unitStyles →
      write_lammpsdata top atom_style unit_style d = .error .valueError)
    ∧ (unit_style ≠ "lj" → dictTruthy d = true →
      write_lammpsdata top atom_style unit_style d = .error .valueError)
    ∧ (atom_style ∉ ["full"] →
      read_lammpsdata_validate atom_style unit_style = some .valueError)
    ∧ (unit_style ∉ unitStyles →
      read_lammpsdata_validate atom_style unit_style = some .valueError) := by
  refine ⟨?_, ?_, ?_, ?_, ?_⟩
  · intro h
    simp [write_lammpsdata, h, Bind.bind, Except.bind, throw, throwThe,
      MonadExceptOf.throw]
  · intro h
    by_cases ha : atom_style ∈ writeAtomStyles <;>
      simp [write_lammpsdata, h, ha, Bind.bind, Except.bind, throw, throwThe,
        MonadExceptOf.throw, pure, Except.pure]
  · intro h hd
    by_cases ha : atom_style ∈ writeAtomStyles <;>
      by_cases hu : unit_style ∈ unitStyles <;>
        simp [write_lammpsdata, h, hd, ha, hu, Bind.bind, Except.bind, throw,
          throwThe, MonadExceptOf.throw, pure, Except.pure]
  · intro h
    unfold read_lammpsdata_validate
    rw [if_pos h]
  · intro h
    unfold read_lammpsdata_validate
    by_cases ha : atom_style ∉ ["full"]
    · rw [if_pos ha]
    · rw [if_neg ha, if_pos h]

/-! ## Claim C4: reduced-unit reference factor resolution -/

theorem mapM_paramOrKeyError_ok (l : List AtomTypeR) (k : String)
    (h : ∀ a ∈ l, (paramQ a k).isSome) :
    exceptMapM (paramOrKeyError · k) l =
      Except.ok (l.map fun a => (paramQ a k).getD 0) := by
  induction l with
  | nil => rfl
  | cons x xs ih =>
    obtain ⟨v, hv⟩ := Option.isSome_iff_exists.mp (h x (List.mem_cons_self x xs))
    have ihh := ih fun a ha => h a (List.mem_cons_of_mem x ha)
    have hfx : paramOrKeyError x k = Except.ok v := by simp [paramOrKeyError, hv]
    simp [exceptMapM, hfx, ihh, Bind.bind, Except.bind, pure, Except.pure, hv]

theorem default_lj_val_length (top : TopologyR)
    (h : ∀ a ∈ top.atom_types, (paramQ a "sigma").isSome) :
    _default_lj_val top "length" =
      pyMax (top.atom_types.map fun a => (paramQ a "sigma").getD 0) := by
  simp [_default_lj_val, mapM_paramOrKeyError_ok top.atom_types "sigma" h,
    Bind.bind, Except.bind]

theorem default_lj_val_energy (top : TopologyR)
    (h : ∀ a ∈ top.atom_types, (paramQ a "epsilon").isSome) :
    _default_lj_val top "energy" =
      pyMax (top.atom_types.map fun a => (paramQ a "epsilon").getD 0) := by
  simp [_default_lj_val, mapM_paramOrKeyError_ok top.atom_types "epsilon" h,
    Bind.bind, Except.bind]

theorem pyMax_ok_of_ne_nil {l : List ℚ} (h : l ≠ []) : ∃ m, pyMax l = .ok m := by
  match l with
  | [] => exact absurd rfl h
  | x :: xs => exact ⟨xs.foldl max x, rfl⟩

/-- Under the claim's hypotheses every default key resolves: a present nonzero
user value is kept, and otherwise `_default_lj_val` succeeds. -/
theorem resolveKey_ok (top : TopologyR) (d : List (String × ℚ)) (k : String)
    (hk : k ∈ ["length", "energy", "mass", "charge"])
    (hne : top.atom_types ≠ [])
    (hparams : ∀ a ∈ top.atom_types,
      (paramQ a "sigma").isSome ∧ (paramQ a "epsilon").isSome) :
    ∃ v, resolveKey top d k = .ok v
      ∧ (d.lookup k = none → _default_lj_val top k = .ok v) := by
  have hdef : ∃ m, _default_lj_val top k = .ok m := by
    have hmapne : ∀ (f : AtomTypeR → ℚ), top.atom_types.map f ≠ [] := by
      intro f hmap
      exact hne (List.map_eq_nil_iff.mp hmap)
    fin_cases hk
    · rw [default_lj_val_length top fun a ha => (hparams a ha).1]
      exact pyMax_ok_of_ne_nil (hmapne _)
    · rw [default_lj_val_energy top fun a ha => (hparams a ha).2]
      exact pyMax_ok_of_ne_nil (hmapne _)
    · simp only [_default_lj_val]
      norm_num
      exact pyMax_ok_of_ne_nil (hmapne _)
    · simp only [_default_lj_val]
      norm_num
      exact pyMax_ok_of_ne_nil (hmapne _)
  obtain ⟨m, hm⟩ := hdef
  cases hl : d.lookup k with
  | none =>
    refine ⟨m, ?_, fun _ => hm⟩
    simp [resolveKey, hl, hm]
  | some v =>
    by_cases hv : v = 0
    · refine ⟨v, ?_, fun hc => Option.noConfusion hc⟩
      simp [resolveKey, hl, hv, hm, Bind.bind, Except.bind]
    · refine ⟨v, ?_, fun hc => Option.noConfusion hc⟩
      simp [resolveKey, hl, hv]

theorem default_lj_val_mass (top : TopologyR) :
    _default_lj_val top "mass" = pyMax (top.atom_types.map (·.mass)) := by
  simp [_default_lj_val]

theorem default_lj_val_charge (top : TopologyR) :
    _default_lj_val top "charge" = pyMax (top.atom_types.map (·.charge)) := by
  simp [_default_lj_val]

/-- **C4**: writing with `unit_style="lj"`, `strict_units=False`: each
reference-factor key among `length`/`energy`/`mass`/`charge` that has no
explicit entry in `lj_cfactorsDict` resolves to the maximum of the
corresponding quantity over the topology's atom types (`sigma`, `epsilon`,
`mass`, `charge`), and any user key outside those four makes the resolution
raise `ValueError`. -/
theorem C4_lj_default_factors (top : TopologyR) (d : List (String × ℚ))
    (hne : top.atom_types ≠ [])
    (hparams : ∀ a ∈ top.atom_types,
      (paramQ a "sigma").isSome ∧ (paramQ a "epsilon").isSome) :
    ((∀ k ∈ d.map Prod.fst, k ∈ ["length", "energy", "mass", "charge"]) →
      ∃ f, resolveLJ top d = .ok f
        ∧ (d.lookup "length" = none →
            pyMax (top.atom_types.map fun a => (paramQ a "sigma").getD 0) =
              .ok f.length)
        ∧ (d.lookup "energy" = none →
            pyMax (top.atom_types.map fun a => (paramQ a "epsilon").getD 0) =
              .ok f.energy)
        ∧ (d.lookup "mass" = none →
            pyMax (top.atom_types.map (·.mass)) = .ok f.mass)
        ∧ (d.lookup "charge" = none →
            pyMax (top.atom_types.map (·.charge)) = .ok f.charge))
    ∧ ((∃ k ∈ d.map Prod.fst, k ∉ ["length", "energy", "mass", "charge"]) →
      resolveLJ top d = .error .valueError) := by
  obtain ⟨vl, hvl, hdl⟩ := resolveKey_ok top d "length" (by simp) hne hparams
  obtain ⟨ve, hve, hde⟩ := resolveKey_ok top d "energy" (by simp) hne hparams
  obtain ⟨vm, hvm, hdm⟩ := resolveKey_ok top d "mass" (by simp) hne hparams
  obtain ⟨vc, hvc, hdc⟩ := resolveKey_ok top d "charge" (by simp) hne hparams
  have hres : resolveLJ top d =
      if (d.map Prod.fst).all (["length", "energy", "mass", "charge"].contains ·)
      then .ok ⟨vl, ve, vm, vc⟩ else .error .valueError := by
    unfold resolveLJ
    simp only [Bind.bind, Except.bind, hvl, hve, hvm, hvc]
  constructor
  · intro hall
    have hcheck : ((d.map Prod.fst).all
        (["length", "energy", "mass", "charge"].contains ·)) = true := by
      simp only [List.all_eq_true]
      intro k hk
      exact List.elem_iff.mpr (hall k hk)
    refine ⟨⟨vl, ve, vm, vc⟩, ?_, ?_, ?_, ?_, ?_⟩
    · rw [hres, hcheck]
      rfl
    · intro hnl
      rw [← default_lj_val_length top fun a ha => (hparams a ha).1]
      exact hdl hnl
    · intro hnl
      rw [← default_lj_val_energy top fun a ha => (hparams a ha).2]
      exact hde hnl
    · intro hnl
      rw [← default_lj_val_mass top]
      exact hdm hnl
    · intro hnl
      rw [← default_lj_val_charge top]
      exact hdc hnl
  · rintro ⟨k, hk, hknot⟩
    have hcheck : ((d.map Prod.fst).all
        (["length", "energy", "mass", "charge"].contains ·)) = false := by
      rw [List.all_eq_false]
      exact ⟨k, hk, by simpa using fun hc => hknot (List.elem_iff.mp hc)⟩
    rw [hres, hcheck]
    rfl

/-! ## Claim C10: header counts versus emitted sections -/

/-- Whether a line is one of the header count lines. -/
def Line.isCount : Line → Bool
  | .countAtoms _ => true
  | .countBonds _ => true
  | .countAngles _ => true
  | .countDihedrals _ => true
  | .countImpropers _ => true
  | .countAtomTypes _ => true
  | .countBondTypes _ => true
  | .countAngleTypes _ => true
  | .countDihedralTypes _ => true
  | .countImproperTypes _ => true
  | _ => false

theorem exceptMapM_ok_mem {α β : Type} {f : α → Except Err β} :
    ∀ {l : List α} {ys : List β}, exceptMapM f l = .ok ys →
      ∀ y ∈ ys, ∃ x ∈ l, f x = .ok y := by
  intro l
  induction l with
  | nil =>
    intro ys h
    cases h
    simp
  | cons a as ih =>
    intro ys h
    simp only [exceptMapM, Bind.bind, Except.bind] at h
    split at h
    · cases h
    · rename_i b hb
      split at h
      · cases h
      · rename_i bs hbs
        cases h
        intro y hy
        rcases List.mem_cons.mp hy with rfl | hy'
        · exact ⟨a, List.mem_cons_self _ _, hb⟩
        · obtain ⟨x, hx, hfx⟩ := ih hbs y hy'
          exact ⟨x, List.mem_cons_of_mem _ hx, hfx⟩

theorem box_isCount (top : TopologyR) (cf : Option LJFactors) :
    ∀ x ∈ _write_box top cf, x.isCount = false := by
  intro x hx
  unfold _write_box at hx
  split at hx <;>
    simp only [List.mem_cons, List.not_mem_nil, or_false] at hx <;>
    rcases hx with rfl | rfl | rfl | rfl | rfl <;> rfl

theorem atomtypes_isCount (top : TopologyR) (cf : Option LJFactors) :
    ∀ x ∈ _write_atomtypes top cf, x.isCount = false := by
  intro x hx
  unfold _write_atomtypes at hx
  rcases List.mem_append.mp hx with h | h
  · simp only [List.mem_cons, List.not_mem_nil, or_false] at h
    rcases h with rfl | rfl <;> rfl
  · obtain ⟨t, _, rfl⟩ := List.mem_map.mp h
    rfl

theorem pairtypes_isCount {top : TopologyR} {cf : Option LJFactors}
    {ls : List Line} (h : _write_pairtypes top cf = .ok ls) :
    ∀ x ∈ ls, x.isCount = false := by
  unfold _write_pairtypes at h
  cases hft : firstSiteType top with
  | error e =>
    simp only [Bind.bind, Except.bind, hft] at h
    cases h
  | ok t0 =>
    simp only [Bind.bind, Except.bind, hft] at h
    split at h
    · cases h
    · rename_i rows hrows
      cases h
      intro x hx
      rcases List.mem_append.mp hx with hh | hh
      · simp only [List.mem_cons, List.not_mem_nil, or_false] at hh
        rcases hh with rfl | rfl | rfl <;> rfl
      · obtain ⟨it, _, hit⟩ := exceptMapM_ok_mem hrows x hh
        try simp only [Bind.bind, Except.bind] at hit
        split at hit
        · cases hit
        · split at hit
          · cases hit
          · cases hit
            rfl

theorem bondtypes_isCount {top : TopologyR} {cf : Option LJFactors}
    {ls : List Line} (h : _write_bondtypes top cf = .ok ls) :
    ∀ x ∈ ls, x.isCount = false := by
  unfold _write_bondtypes at h
  cases hft : firstBondType top with
  | error e =>
    simp only [Bind.bind, Except.bind, hft] at h
    cases h
  | ok test =>
    simp only [Bind.bind, Except.bind, hft] at h
    cases h
    intro x hx
    rcases List.mem_append.mp hx with hh | hh
    · simp only [List.mem_cons, List.not_mem_nil, or_false] at hh
      rcases hh with rfl | rfl | rfl <;> rfl
    · obtain ⟨t, _, rfl⟩ := List.mem_map.mp hh
      rfl

theorem angletypes_isCount {top : TopologyR} {cf : Option LJFactors}
    {ls : List Line} (h : _write_angletypes top cf = .ok ls) :
    ∀ x ∈ ls, x.isCount = false := by
  unfold _write_angletypes at h
  cases hft : firstAngleType top with
  | error e =>
    simp only [Bind.bind, Except.bind, hft] at h
    cases h
  | ok test =>
    simp only [Bind.bind, Except.bind, hft] at h
    cases h
    intro x hx
    rcases List.mem_append.mp hx with hh | hh
    · simp only [List.mem_cons, List.not_mem_nil, or_false] at hh
      rcases hh with rfl | rfl | rfl <;> rfl
    · obtain ⟨t, _, rfl⟩ := List.mem_map.mp hh
      rfl

theorem dihedraltypes_isCount {top : TopologyR} {cf : Option LJFactors}
    {ls : List Line} (h : _write_dihedraltypes top cf = .ok ls) :
    ∀ x ∈ ls, x.isCount = false := by
  unfold _write_dihedraltypes at h
  cases hft : firstDihedralType top with
  | error e =>
    simp only [Bind.bind, Except.bind, hft] at h
    cases h
  | ok test =>
    simp only [Bind.bind, Except.bind, hft] at h
    cases h
    intro x hx
    rcases List.mem_append.mp hx with hh | hh
    · simp only [List.mem_cons, List.not_mem_nil, or_false] at hh
      rcases hh with rfl | rfl | rfl <;> rfl
    · obtain ⟨t, _, rfl⟩ := List.mem_map.mp hh
      rfl

theorem impropertypes_isCount {top : TopologyR} {cf : Option LJFactors}
    {ls : List Line} (h : _write_impropertypes top cf = .ok ls) :
    ∀ x ∈ ls, x.isCount = false := by
  unfold _write_impropertypes at h
  cases hft : firstImproperType top with
  | error e =>
    simp only [Bind.bind, Except.bind, hft] at h
    cases h
  | ok test =>
    simp only [Bind.bind, Except.bind, hft] at h
    cases h
    intro x hx
    rcases List.mem_append.mp hx with hh | hh
    · simp only [List.mem_cons, List.not_mem_nil, or_false] at hh
      rcases hh with rfl | rfl | rfl <;> rfl
    · obtain ⟨t, _, rfl⟩ := List.mem_map.mp hh
      rfl

theorem sitedata_isCount {top : TopologyR} {atom_style : String}
    {cf : Option LJFactors} {ls : List Line}
    (h : _write_site_data top atom_style cf = .ok ls) :
    ∀ x ∈ ls, x.isCount = false := by
  unfold _write_site_data at h
  simp only [Bind.bind, Except.bind] at h
  split at h
  · cases h
  · rename_i rows hrows
    cases h
    intro x hx
    simp only [List.mem_cons] at hx
    rcases hx with rfl | rfl | rfl | hh
    · rfl
    · rfl
    · rfl
    · obtain ⟨it, _, hit⟩ := exceptMapM_ok_mem hrows x hh
      try simp only [Bind.bind, Except.bind] at hit
      split at hit
      · cases hit
      · split at hit
        · cases hit
        · cases hit
          split <;> rfl

theorem connDataLines_isCount {sec : String} {orderKey : List String → SKey}
    {sb : List (List String)} {conns : List (Option (List String) × List ℕ)}
    {ls : List Line} (h : connDataLines sec orderKey sb conns = .ok ls) :
    ∀ x ∈ ls, x.isCount = false := by
  unfold connDataLines at h
  simp only [Bind.bind, Except.bind] at h
  split at h
  · cases h
  · rename_i rows hrows
    cases h
    intro x hx
    simp only [List.mem_cons] at hx
    rcases hx with rfl | rfl | hh
    · rfl
    · rfl
    · obtain ⟨it, _, hit⟩ := exceptMapM_ok_mem hrows x hh
      try simp only [Bind.bind, Except.bind] at hit
      split at hit
      · cases hit
      · split at hit
        · cases hit
        · cases hit
          rfl

/-- The first line of a `connDataLines` section is its section header. -/
theorem connDataLines_header {sec : String} {orderKey : List String → SKey}
    {sb : List (List String)} {conns : List (Option (List String) × List ℕ)}
    {ls : List Line} (h : connDataLines sec orderKey sb conns = .ok ls) :
    Line.sectionHeader sec ∈ ls := by
  unfold connDataLines at h
  simp only [Bind.bind, Except.bind] at h
  split at h
  · cases h
  · cases h
    exact List.mem_cons_self _ _

theorem conversions_ok_eq {top t' : TopologyR}
    (h : _try_default_potential_conversions top = .ok t') : t' = top := by
  unfold _try_default_potential_conversions at h
  split at h
  · cases h
  · split at h
    · cases h
    · split at h
      · cases h
      · split at h
        · cases h
        · cases h
          rfl

theorem write_ok_inv {top : TopologyR} {style us : String}
    {d : Option (List (String × ℚ))} {lines : List Line}
    (h : write_lammpsdata top style us d = .ok lines) :
    ∃ cf, writeBody top style cf = .ok lines := by
  unfold write_lammpsdata at h
  simp only [Bind.bind, Except.bind, pure, Except.pure, throw, throwThe,
    MonadExceptOf.throw] at h
  split at h
  · cases h
  · split at h
    · cases h
    · split at h
      · cases h
      · split at h
        · cases h
        · rename_i top' hconv
          rw [conversions_ok_eq hconv] at h
          split at h
          · exact ⟨none, h⟩
          · split at h
            · cases h
            · rename_i f hf
              exact ⟨some f, h⟩

theorem iteExcept_isCount {c : Prop} [Decidable c] {m : Except Err (List Line)}
    {ls : List Line}
    (hm : ∀ ls', m = .ok ls' → ∀ x ∈ ls', Line.isCount x = false)
    (h : iteSection c m = .ok ls) :
    ∀ x ∈ ls, x.isCount = false := by
  unfold iteSection at h
  split at h
  · exact hm ls h
  · simp only [pure, Except.pure, Except.ok.injEq] at h
    subst h
    simp

theorem writeTypeSections_isCount {top : TopologyR} {cf : Option LJFactors}
    {ts : List Line} (h : writeTypeSections top cf = .ok ts) :
    ∀ x ∈ ts, x.isCount = false := by
  unfold writeTypeSections at h
  simp only [Bind.bind, Except.bind] at h
  split at h
  · cases h
  · rename_i p hp
    split at h
    · cases h
    · rename_i b hb
      split at h
      · cases h
      · rename_i a ha
        split at h
        · cases h
        · rename_i dd hd
          split at h
          · cases h
          · rename_i ii hi
            simp only [pure, Except.pure, Except.ok.injEq] at h
            subst h
            intro x hx
            simp only [List.mem_append] at hx
            rcases hx with ((((hm | hp') | hb') | ha') | hd') | hi'
            · exact atomtypes_isCount top cf x hm
            · exact pairtypes_isCount hp x hp'
            · exact iteExcept_isCount (fun ls' h' => bondtypes_isCount h') hb x hb'
            · exact iteExcept_isCount (fun ls' h' => angletypes_isCount h') ha x ha'
            · exact iteExcept_isCount (fun ls' h' => dihedraltypes_isCount h') hd x hd'
            · exact iteExcept_isCount (fun ls' h' => impropertypes_isCount h') hi x hi'

theorem writeBody_ok_shape {top : TopologyR} {style : String}
    {cf : Option LJFactors} {lines : List Line}
    (h : writeBody top style cf = .ok lines) :
    ∃ ts ss bs ans ds ims,
      lines = _write_header top style ++ _write_box top cf ++ ts ++ ss ++ bs
        ++ ans ++ ds ++ ims
      ∧ (∀ x ∈ ts, x.isCount = false)
      ∧ (∀ x ∈ ss, x.isCount = false)
      ∧ (∀ x ∈ bs, x.isCount = false)
      ∧ (top.bonds ≠ [] → Line.sectionHeader "Bonds" ∈ bs)
      ∧ (∀ x ∈ ans, x.isCount = false)
      ∧ (top.angles ≠ [] → Line.sectionHeader "Angles" ∈ ans)
      ∧ (∀ x ∈ ds, x.isCount = false)
      ∧ (top.dihedrals ≠ [] → Line.sectionHeader "Dihedrals" ∈ ds)
      ∧ (∀ x ∈ ims, x.isCount = false)
      ∧ (top.impropers ≠ [] → Line.sectionHeader "Impropers" ∈ ims) := by
  unfold writeBody at h
  simp only [Bind.bind, Except.bind] at h
  split at h
  · cases h
  · rename_i ts hts
    split at h
    · cases h
    · rename_i ss hss
      split at h
      · cases h
      · rename_i bs hbs
        split at h
        · cases h
        · rename_i ans hans
          split at h
          · cases h
          · rename_i ds hds
            split at h
            · cases h
            · rename_i ims hims
              simp only [pure, Except.pure, Except.ok.injEq] at h
              subst h
              refine ⟨ts, ss, bs, ans, ds, ims, by simp [List.append_assoc],
                ?_, ?_, ?_, ?_, ?_, ?_, ?_, ?_, ?_, ?_⟩
              · exact iteExcept_isCount
                  (fun ls' h' => writeTypeSections_isCount h') hts
              · exact sitedata_isCount hss
              · exact iteExcept_isCount
                  (fun ls' h' => connDataLines_isCount h') hbs
              · intro hbne
                rw [iteSection, if_pos hbne] at hbs
                exact connDataLines_header hbs
              · exact iteExcept_isCount
                  (fun ls' h' => connDataLines_isCount h') hans
              · intro hane
                rw [iteSection, if_pos hane] at hans
                exact connDataLines_header hans
              · exact iteExcept_isCount
                  (fun ls' h' => connDataLines_isCount h') hds
              · intro hdne
                rw [iteSection, if_pos hdne] at hds
                exact connDataLines_header hds
              · exact iteExcept_isCount
                  (fun ls' h' => connDataLines_isCount h') hims
              · intro hine
                rw [iteSection, if_pos hine] at hims
                exact connDataLines_header hims

/-- **C10**: writing a topology that has bonds (angles, dihedrals, impropers)
with `atom_style` `atomic` or `charge` omits the connection count lines and the
connection-type count lines from the header — the header then consists of the
banner, the atom count and the atom-type count only — yet still emits the
Bonds/Angles/Dihedrals/Impropers data sections for the nonempty kinds, so the
header counts and the emitted sections disagree. -/
theorem C10_atomic_charge_header_mismatch (top : TopologyR) (style us : String)
    (d : Option (List (String × ℚ))) (lines : List Line)
    (hstyle : style = "atomic" ∨ style = "charge")
    (hok : write_lammpsdata top style us d = .ok lines) :
    ((∀ n, Line.countBonds n ∉ lines) ∧ (∀ n, Line.countBondTypes n ∉ lines)
      ∧ (top.bonds ≠ [] → Line.sectionHeader "Bonds" ∈ lines))
    ∧ ((∀ n, Line.countAngles n ∉ lines) ∧ (∀ n, Line.countAngleTypes n ∉ lines)
      ∧ (top.angles ≠ [] → Line.sectionHeader "Angles" ∈ lines))
    ∧ ((∀ n, Line.countDihedrals n ∉ lines)
      ∧ (∀ n, Line.countDihedralTypes n ∉ lines)
      ∧ (top.dihedrals ≠ [] → Line.sectionHeader "Dihedrals" ∈ lines))
    ∧ ((∀ n, Line.countImpropers n ∉ lines)
      ∧ (∀ n, Line.countImproperTypes n ∉ lines)
      ∧ (top.impropers ≠ [] → Line.sectionHeader "Impropers" ∈ lines)) := by
  obtain ⟨cf, hbody⟩ := write_ok_inv hok
  obtain ⟨ts, ss, bs, ans, ds, ims, hlines, hts, hss, hbs, hbsec, hans, hasec,
    hds, hdsec, hims, hisec⟩ := writeBody_ok_shape hbody
  have hsm : style ∉ ["full", "molecular"] := by
    rcases hstyle with rfl | rfl <;> decide
  have hheader : _write_header top style =
      [Line.banner top.name, Line.blank, Line.countAtoms top.sites.length,
       Line.countAtomTypes top.atom_types.length, Line.blank] := by
    simp [_write_header, hsm]
  have honly : ∀ x ∈ lines, x.isCount = true → x ∈ _write_header top style := by
    subst hlines
    intro x hx hcx
    simp only [List.mem_append] at hx
    rcases hx with ((((((hh | hb) | ht) | hs1) | h1) | h2) | h3) | h4
    · exact hh
    · exact absurd (box_isCount top cf _ hb) (by rw [hcx]; simp)
    · exact absurd (hts _ ht) (by rw [hcx]; simp)
    · exact absurd (hss _ hs1) (by rw [hcx]; simp)
    · exact absurd (hbs _ h1) (by rw [hcx]; simp)
    · exact absurd (hans _ h2) (by rw [hcx]; simp)
    · exact absurd (hds _ h3) (by rw [hcx]; simp)
    · exact absurd (hims _ h4) (by rw [hcx]; simp)
  have hsecmem : ∀ sec ∈ [bs, ans, ds, ims], ∀ x ∈ sec, x ∈ lines := by
    subst hlines
    intro sec hsec x hxs
    simp only [List.mem_cons, List.not_mem_nil, or_false] at hsec
    simp only [List.mem_append]
    rcases hsec with rfl | rfl | rfl | rfl
    · exact Or.inl (Or.inl (Or.inl (Or.inr hxs)))
    · exact Or.inl (Or.inl (Or.inr hxs))
    · exact Or.inl (Or.inr hxs)
    · exact Or.inr hxs
  refine ⟨⟨?_, ?_, ?_⟩, ⟨?_, ?_, ?_⟩, ⟨?_, ?_, ?_⟩, ⟨?_, ?_, ?_⟩⟩
  · intro n hn
    have := honly _ hn rfl
    rw [hheader] at this
    simp at this
  · intro n hn
    have := honly _ hn rfl
    rw [hheader] at this
    simp at this
  · intro hne
    exact hsecmem bs (by simp) _ (hbsec hne)
  · intro n hn
    have := honly _ hn rfl
    rw [hheader] at this
    simp at this
  · intro n hn
    have := honly _ hn rfl
    rw [hheader] at this
    simp at this
  · intro hne
    exact hsecmem ans (by simp) _ (hasec hne)
  · intro n hn
    have := honly _ hn rfl
    rw [hheader] at this
    simp at this
  · intro n hn
    have := honly _ hn rfl
    rw [hheader] at this
    simp at this
  · intro hne
    exact hsecmem ds (by simp) _ (hdsec hne)
  · intro n hn
    have := honly _ hn rfl
    rw [hheader] at this
    simp at this
  · intro n hn
    have := honly _ hn rfl
    rw [hheader] at this
    simp at this
  · intro hne
    exact hsecmem ims (by simp) _ (hisec hne)

/-! ## Claim C2: order independence of the writer -/

theorem perm_all {α : Type} {l l' : List α} (h : l.Perm l') (f : α → Bool) :
    l.all f = l'.all f := by
  cases hl : l.all f with
  | true =>
    symm
    rw [List.all_eq_true] at hl ⊢
    exact fun x hx => hl x (h.mem_iff.mpr hx)
  | false =>
    symm
    rw [List.all_eq_false] at hl ⊢
    obtain ⟨x, hx, hfx⟩ := hl
    exact ⟨x, h.mem_iff.mp hx, hfx⟩

theorem perm_ne_nil {α : Type} {l l' : List α} (h : l.Perm l') :
    (l ≠ []) = (l' ≠ []) := by
  simp only [ne_eq, eq_iff_iff, not_iff_not]
  constructor
  · intro hl
    subst hl
    exact h.nil_eq.symm
  · intro hl
    subst hl
    exact h.symm.nil_eq.symm

/-- Sorting with a key whose values are pairwise distinct is invariant under
permutation of the input. -/
theorem pySorted_congr {α : Type} (key : α → SKey) {l l' : List α}
    (hp : l.Perm l') (hnd : (l.map key).Nodup) :
    pySorted key l = pySorted key l' :=
  eq_of_perm_of_sorted_of_nodupKeys key
    ((pySorted_perm key l).trans (hp.trans (pySorted_perm key l').symm))
    (pySorted_sorted key l) (pySorted_sorted key l')
    (((pySorted_perm key l).map key).nodup_iff.mpr hnd)

/-- `pyMax` computes the greatest element of a nonempty list. -/
theorem pyMax_spec (x : ℚ) (xs : List ℚ) :
    List.foldl max x xs ∈ x :: xs ∧ ∀ y ∈ x :: xs, y ≤ List.foldl max x xs := by
  induction xs generalizing x with
  | nil => simp
  | cons z zs ih =>
    obtain ⟨hmem, hle⟩ := ih (max x z)
    constructor
    · simp only [List.foldl_cons]
      rcases List.mem_cons.mp hmem with hmx | hmz
    -- the fold result is `max x z` (hence `x` or `z`) or an element of `zs`
      · rcases max_choice x z with hc | hc <;> rw [hmx, hc]
        · exact List.mem_cons_self _ _
        · simp
      · simp [hmz]
    · intro y hy
      simp only [List.foldl_cons]
      rcases List.mem_cons.mp hy with rfl | hy'
      · exact le_trans (le_max_left y z) (hle _ (List.mem_cons_self _ _))
      · rcases List.mem_cons.mp hy' with rfl | hy''
        · exact le_trans (le_max_right x y) (hle _ (List.mem_cons_self _ _))
        · exact hle y (List.mem_cons_of_mem _ hy'')

theorem pyMax_perm {l l' : List ℚ} (h : l.Perm l') : pyMax l = pyMax l' := by
  match l, l' with
  | [], l' =>
    rw [h.nil_eq.symm]
  | x :: xs, [] =>
    exact absurd h.symm.nil_eq (by simp)
  | x :: xs, y :: ys =>
    obtain ⟨hm1, hle1⟩ := pyMax_spec x xs
    obtain ⟨hm2, hle2⟩ := pyMax_spec y ys
    simp only [pyMax, Except.ok.injEq]
    exact le_antisymm (hle2 _ (h.mem_iff.mp hm1)) (hle1 _ (h.mem_iff.mpr hm2))

theorem exceptMapM_error_constErr {α β : Type} {f : α → Except Err β} {e : Err}
    (hf : ∀ a, f a = .error e ∨ ∃ b, f a = .ok b) :
    ∀ {l : List α} {err : Err}, exceptMapM f l = .error err → err = e := by
  intro l
  induction l with
  | nil =>
    intro err h
    cases h
  | cons a as ih =>
    intro err h
    rcases hf a with hfa | ⟨b, hfa⟩
    · simp only [exceptMapM, hfa, Bind.bind, Except.bind] at h
      cases h
      rfl
    · simp only [exceptMapM, hfa, Bind.bind, Except.bind] at h
      cases hrest : exceptMapM f as with
      | error err2 =>
        rw [hrest] at h
        cases h
        exact ih hrest
      | ok vs =>
        rw [hrest] at h
        cases h

theorem exceptMapM_perm_constErr {α β : Type} {f : α → Except Err β} {e : Err}
    (hf : ∀ a, f a = .error e ∨ ∃ b, f a = .ok b) :
    ∀ {l l' : List α}, l.Perm l' →
      (exceptMapM f l = .error e ∧ exceptMapM f l' = .error e)
      ∨ (∃ vs vs', exceptMapM f l = .ok vs ∧ exceptMapM f l' = .ok vs'
          ∧ vs.Perm vs') := by
  intro l l' hp
  induction hp with
  | nil => exact Or.inr ⟨[], [], rfl, rfl, List.Perm.refl []⟩
  | cons a hab ih =>
    rcases hf a with hfa | ⟨b, hfa⟩
    · left
      constructor <;> simp [exceptMapM, hfa, Bind.bind, Except.bind]
    · rcases ih with ⟨h1, h2⟩ | ⟨vs, vs', h1, h2, hpv⟩
      · left
        constructor <;>
          simp [exceptMapM, hfa, h1, h2, Bind.bind, Except.bind]
      · right
        exact ⟨b :: vs, b :: vs',
          by simp [exceptMapM, hfa, h1, Bind.bind, Except.bind],
          by simp [exceptMapM, hfa, h2, Bind.bind, Except.bind],
          hpv.cons b⟩
  | swap a b l =>
    rcases hf a with hfa | ⟨va, hfa⟩
    · rcases hf b with hfb | ⟨vb, hfb⟩
      · left
        constructor <;> simp [exceptMapM, hfa, hfb, Bind.bind, Except.bind]
      · left
        constructor <;> simp [exceptMapM, hfa, hfb, Bind.bind, Except.bind]
    · rcases hf b with hfb | ⟨vb, hfb⟩
      · left
        constructor <;> simp [exceptMapM, hfa, hfb, Bind.bind, Except.bind]
      · cases hrest : exceptMapM f l with
        | error err =>
          have herr := exceptMapM_error_constErr hf hrest
          subst herr
          left
          constructor <;>
            simp [exceptMapM, hfa, hfb, hrest, Bind.bind, Except.bind]
        | ok vs =>
          right
          exact ⟨vb :: va :: vs, va :: vb :: vs,
            by simp [exceptMapM, hfa, hfb, hrest, Bind.bind, Except.bind],
            by simp [exceptMapM, hfa, hfb, hrest, Bind.bind, Except.bind],
            List.Perm.swap _ _ _⟩
  | trans h1 h2 ih1 ih2 =>
    rcases ih1 with ⟨ha, hb⟩ | ⟨vs, vs', ha, hb, hpv⟩
    · rcases ih2 with ⟨hc, hd⟩ | ⟨ws, ws', hc, hd, hpw⟩
      · exact Or.inl ⟨ha, hd⟩
      · rw [hb] at hc
        cases hc
    · rcases ih2 with ⟨hc, hd⟩ | ⟨ws, ws', hc, hd, hpw⟩
      · rw [hb] at hc
        cases hc
      · rw [hb] at hc
        cases hc
        exact Or.inr ⟨vs, ws', ha, hd, hpv.trans hpw⟩

theorem bindPyMax_perm {l l' : List AtomTypeR} (hp : l.Perm l') (k : String) :
    ((exceptMapM (paramOrKeyError · k) l) >>= pyMax) =
      ((exceptMapM (paramOrKeyError · k) l') >>= pyMax) := by
  have hf : ∀ a, paramOrKeyError a k = .error Err.keyError
      ∨ ∃ b, paramOrKeyError a k = .ok b := by
    intro a
    unfold paramOrKeyError
    cases paramQ a k <;> simp
  rcases exceptMapM_perm_constErr hf hp with ⟨h1, h2⟩ | ⟨vs, vs', h1, h2, hpv⟩
  · simp [h1, h2, Bind.bind, Except.bind]
  · simp [h1, h2, Bind.bind, Except.bind, pyMax_perm hpv]

/-- Two topologies that agree on sites, connections, name and box, and whose
five type views are permutations of each other. -/
structure TypePermHyp (t1 t2 : TopologyR) : Prop where
  sitesEq : t2.sites = t1.sites
  bondsEq : t2.bonds = t1.bonds
  anglesEq : t2.angles = t1.angles
  dihedralsEq : t2.dihedrals = t1.dihedrals
  impropersEq : t2.impropers = t1.impropers
  nameEq : t2.name = t1.name
  boxEq : t2.box = t1.box
  atPerm : t2.atom_types.Perm t1.atom_types
  btPerm : t2.bond_types.Perm t1.bond_types
  antPerm : t2.angle_types.Perm t1.angle_types
  dtPerm : t2.dihedral_types.Perm t1.dihedral_types
  itPerm : t2.improper_types.Perm t1.improper_types

theorem default_lj_val_congr {t1 t2 : TopologyR}
    (hp : t2.atom_types.Perm t1.atom_types) (k : String) :
    _default_lj_val t2 k = _default_lj_val t1 k := by
  unfold _default_lj_val
  split_ifs
  · exact bindPyMax_perm hp "sigma"
  · exact bindPyMax_perm hp "epsilon"
  · exact pyMax_perm (hp.map (·.mass))
  · exact pyMax_perm (hp.map (·.charge))
  · rfl

theorem resolveKey_congr {t1 t2 : TopologyR}
    (hp : t2.atom_types.Perm t1.atom_types) (d : List (String × ℚ))
    (k : String) :
    resolveKey t2 d k = resolveKey t1 d k := by
  unfold resolveKey
  cases d.lookup k with
  | none => exact default_lj_val_congr hp k
  | some v =>
    by_cases hv : v = 0 <;>
      simp [hv, default_lj_val_congr hp k, Bind.bind, Except.bind]

theorem resolveLJ_congr {t1 t2 : TopologyR}
    (hp : t2.atom_types.Perm t1.atom_types) (d : List (String × ℚ)) :
    resolveLJ t2 d = resolveLJ t1 d := by
  unfold resolveLJ
  rw [resolveKey_congr hp d "length", resolveKey_congr hp d "energy",
    resolveKey_congr hp d "mass", resolveKey_congr hp d "charge"]

theorem convChecks_congr {t1 t2 : TopologyR} (h : TypePermHyp t1 t2) :
    convCheckImpropers t2 = convCheckImpropers t1
    ∧ convCheckDihedrals t2 = convCheckDihedrals t1
    ∧ convCheckAngles t2 = convCheckAngles t1
    ∧ convCheckBonds t2 = convCheckBonds t1 := by
  refine ⟨?_, ?_, ?_, ?_⟩
  · unfold convCheckImpropers
    simp only [perm_ne_nil h.itPerm, perm_all h.itPerm, h.impropersEq]
  · unfold convCheckDihedrals
    simp only [perm_ne_nil h.dtPerm, perm_all h.dtPerm, h.dihedralsEq]
  · unfold convCheckAngles
    simp only [perm_ne_nil h.antPerm, perm_all h.antPerm, h.anglesEq]
  · unfold convCheckBonds
    simp only [perm_ne_nil h.btPerm, perm_all h.btPerm, h.bondsEq]

theorem header_congr {t1 t2 : TopologyR} (h : TypePermHyp t1 t2)
    (style : String) : _write_header t2 style = _write_header t1 style := by
  unfold _write_header
  simp only [h.sitesEq, h.bondsEq, h.anglesEq, h.dihedralsEq, h.impropersEq,
    h.nameEq, h.atPerm.length_eq, h.btPerm.length_eq, h.antPerm.length_eq,
    h.dtPerm.length_eq, h.itPerm.length_eq]

theorem box_congr {t1 t2 : TopologyR} (h : TypePermHyp t1 t2)
    (cf : Option LJFactors) : _write_box t2 cf = _write_box t1 cf := by
  unfold _write_box
  simp only [h.boxEq]

theorem fully_typed_congr {t1 t2 : TopologyR} (h : TypePermHyp t1 t2) :
    is_fully_typed t2 = is_fully_typed t1 := by
  unfold is_fully_typed
  rw [h.sitesEq, h.bondsEq, h.anglesEq, h.dihedralsEq, h.impropersEq]

theorem firstSiteType_congr {t1 t2 : TopologyR} (h : TypePermHyp t1 t2) :
    firstSiteType t2 = firstSiteType t1 := by
  unfold firstSiteType
  rw [h.sitesEq]

theorem sortedAtomTypes_congr {t1 t2 : TopologyR} (h : TypePermHyp t1 t2)
    (hndA : (t1.atom_types.map fun a => [strKey a.name]).Nodup) :
    pySorted (fun a => [strKey a.name]) t2.atom_types =
      pySorted (fun a => [strKey a.name]) t1.atom_types :=
  (pySorted_congr _ h.atPerm.symm hndA).symm

theorem atomtypes_congr {t1 t2 : TopologyR} (h : TypePermHyp t1 t2)
    (cf : Option LJFactors)
    (hndA : (t1.atom_types.map fun a => [strKey a.name]).Nodup) :
    _write_atomtypes t2 cf = _write_atomtypes t1 cf := by
  unfold _write_atomtypes
  rw [sortedAtomTypes_congr h hndA]

theorem pairtypes_congr {t1 t2 : TopologyR} (h : TypePermHyp t1 t2)
    (cf : Option LJFactors)
    (hndA : (t1.atom_types.map fun a => [strKey a.name]).Nodup) :
    _write_pairtypes t2 cf = _write_pairtypes t1 cf := by
  unfold _write_pairtypes
  rw [firstSiteType_congr h, sortedAtomTypes_congr h hndA]

theorem bondtypes_congr {t1 t2 : TopologyR} (h : TypePermHyp t1 t2)
    (cf : Option LJFactors)
    (hndB : (t1.bond_types.map fun t => (sort_by_types_bond t).map strKey).Nodup) :
    _write_bondtypes t2 cf = _write_bondtypes t1 cf := by
  unfold _write_bondtypes
  have : firstBondType t2 = firstBondType t1 := by
    unfold firstBondType
    rw [h.bondsEq]
  rw [this, (pySorted_congr _ h.btPerm.symm hndB).symm]

theorem angletypes_congr {t1 t2 : TopologyR} (h : TypePermHyp t1 t2)
    (cf : Option LJFactors)
    (hndAn : (t1.angle_types.map fun t =>
      [strKey t.member_types.2.1,
       strKey (minStr t.member_types.1 t.member_types.2.2),
       strKey (maxStr t.member_types.1 t.member_types.2.2)]).Nodup) :
    _write_angletypes t2 cf = _write_angletypes t1 cf := by
  unfold _write_angletypes
  have : firstAngleType t2 = firstAngleType t1 := by
    unfold firstAngleType
    rw [h.anglesEq]
  rw [this, (pySorted_congr _ h.antPerm.symm hndAn).symm]

theorem dihedraltypes_congr {t1 t2 : TopologyR} (h : TypePermHyp t1 t2)
    (cf : Option LJFactors)
    (hndD : (t1.dihedral_types.map fun t =>
      let m := sort_by_types_dihedral t
      [strKey (m.getD 1 ""), strKey (m.getD 2 ""), strKey (m.getD 0 ""),
       strKey (m.getD 3 "")]).Nodup) :
    _write_dihedraltypes t2 cf = _write_dihedraltypes t1 cf := by
  unfold _write_dihedraltypes
  have : firstDihedralType t2 = firstDihedralType t1 := by
    unfold firstDihedralType
    rw [h.dihedralsEq]
  rw [this, (pySorted_congr _ h.dtPerm.symm hndD).symm]

theorem impropertypes_congr {t1 t2 : TopologyR} (h : TypePermHyp t1 t2)
    (cf : Option LJFactors)
    (hndI : (t1.improper_types.map fun t =>
      (sort_by_types_improper t).map strKey).Nodup) :
    _write_impropertypes t2 cf = _write_impropertypes t1 cf := by
  unfold _write_impropertypes
  have : firstImproperType t2 = firstImproperType t1 := by
    unfold firstImproperType
    rw [h.impropersEq]
  rw [this, (pySorted_congr _ h.itPerm.symm hndI).symm]

theorem sitedata_congr {t1 t2 : TopologyR} (h : TypePermHyp t1 t2)
    (style : String) (cf : Option LJFactors)
    (hndA : (t1.atom_types.map fun a => [strKey a.name]).Nodup) :
    _write_site_data t2 style cf = _write_site_data t1 style cf := by
  unfold _write_site_data
  rw [sortedAtomTypes_congr h hndA, h.sitesEq]

theorem connDataLines_congr {sec : String} {orderKey : List String → SKey}
    {sb1 sb2 : List (List String)}
    (hsort : pySorted orderKey sb2 = pySorted orderKey sb1)
    (conns : List (Option (List String) × List ℕ)) :
    connDataLines sec orderKey sb2 conns = connDataLines sec orderKey sb1 conns := by
  unfold connDataLines
  rw [hsort]

theorem bondsdata_congr {t1 t2 : TopologyR} (h : TypePermHyp t1 t2)
    (hndB : (t1.bond_types.map fun t => (sort_by_types_bond t).map strKey).Nodup) :
    _write_bonds_data t2 = _write_bonds_data t1 := by
  unfold _write_bonds_data
  rw [h.bondsEq]
  apply connDataLines_congr
  have hnd' : ((t1.bond_types.map sort_by_types_bond).map fun l =>
      l.map strKey).Nodup := by
    rw [List.map_map]
    exact hndB
  exact (pySorted_congr _ (h.btPerm.map _).symm hnd').symm

theorem anglesdata_congr {t1 t2 : TopologyR} (h : TypePermHyp t1 t2)
    (hndAn : (t1.angle_types.map fun t =>
      [strKey t.member_types.2.1,
       strKey (minStr t.member_types.1 t.member_types.2.2),
       strKey (maxStr t.member_types.1 t.member_types.2.2)]).Nodup) :
    _write_angles_data t2 = _write_angles_data t1 := by
  unfold _write_angles_data
  rw [h.anglesEq]
  apply connDataLines_congr
  have hnd' : ((t1.angle_types.map sort_by_types_angle).map fun l =>
      [strKey (l.getD 1 ""), strKey (l.getD 0 ""), strKey (l.getD 2 "")]).Nodup := by
    rw [List.map_map]
    exact hndAn
  exact (pySorted_congr _ (h.antPerm.map _).symm hnd').symm

theorem dihedralsdata_congr {t1 t2 : TopologyR} (h : TypePermHyp t1 t2)
    (hndD : (t1.dihedral_types.map fun t =>
      let m := sort_by_types_dihedral t
      [strKey (m.getD 1 ""), strKey (m.getD 2 ""), strKey (m.getD 0 ""),
       strKey (m.getD 3 "")]).Nodup) :
    _write_dihedrals_data t2 = _write_dihedrals_data t1 := by
  unfold _write_dihedrals_data
  rw [h.dihedralsEq]
  apply connDataLines_congr
  have hnd' : ((t1.dihedral_types.map sort_by_types_dihedral).map fun l =>
      [strKey (l.getD 1 ""), strKey (l.getD 2 ""), strKey (l.getD 0 ""),
       strKey (l.getD 3 "")]).Nodup := by
    rw [List.map_map]
    exact hndD
  exact (pySorted_congr _ (h.dtPerm.map _).symm hnd').symm

theorem impropersdata_congr {t1 t2 : TopologyR} (h : TypePermHyp t1 t2)
    (hndI : (t1.improper_types.map fun t =>
      (sort_by_types_improper t).map strKey).Nodup) :
    _write_impropers_data t2 = _write_impropers_data t1 := by
  unfold _write_impropers_data
  rw [h.impropersEq]
  apply connDataLines_congr
  have hnd' : ((t1.improper_types.map sort_by_types_improper).map fun l =>
      l.map strKey).Nodup := by
    rw [List.map_map]
    exact hndI
  exact (pySorted_congr _ (h.itPerm.map _).symm hnd').symm

theorem writeTypeSections_congr {t1 t2 : TopologyR} (h : TypePermHyp t1 t2)
    (cf : Option LJFactors)
    (hndA : (t1.atom_types.map fun a => [strKey a.name]).Nodup)
    (hndB : (t1.bond_types.map fun t => (sort_by_types_bond t).map strKey).Nodup)
    (hndAn : (t1.angle_types.map fun t =>
      [strKey t.member_types.2.1,
       strKey (minStr t.member_types.1 t.member_types.2.2),
       strKey (maxStr t.member_types.1 t.member_types.2.2)]).Nodup)
    (hndD : (t1.dihedral_types.map fun t =>
      let m := sort_by_types_dihedral t
      [strKey (m.getD 1 ""), strKey (m.getD 2 ""), strKey (m.getD 0 ""),
       strKey (m.getD 3 "")]).Nodup)
    (hndI : (t1.improper_types.map fun t =>
      (sort_by_types_improper t).map strKey).Nodup) :
    writeTypeSections t2 cf = writeTypeSections t1 cf := by
  unfold writeTypeSections
  simp only [atomtypes_congr h cf hndA, pairtypes_congr h cf hndA,
    bondtypes_congr h cf hndB, angletypes_congr h cf hndAn,
    dihedraltypes_congr h cf hndD, impropertypes_congr h cf hndI,
    perm_ne_nil h.btPerm, perm_ne_nil h.antPerm, perm_ne_nil h.dtPerm,
    perm_ne_nil h.itPerm]

theorem writeBody_congr {t1 t2 : TopologyR} (h : TypePermHyp t1 t2)
    (style : String) (cf : Option LJFactors)
    (hndA : (t1.atom_types.map fun a => [strKey a.name]).Nodup)
    (hndB : (t1.bond_types.map fun t => (sort_by_types_bond t).map strKey).Nodup)
    (hndAn : (t1.angle_types.map fun t =>
      [strKey t.member_types.2.1,
       strKey (minStr t.member_types.1 t.member_types.2.2),
       strKey (maxStr t.member_types.1 t.member_types.2.2)]).Nodup)
    (hndD : (t1.dihedral_types.map fun t =>
      let m := sort_by_types_dihedral t
      [strKey (m.getD 1 ""), strKey (m.getD 2 ""), strKey (m.getD 0 ""),
       strKey (m.getD 3 "")]).Nodup)
    (hndI : (t1.improper_types.map fun t =>
      (sort_by_types_improper t).map strKey).Nodup) :
    writeBody t2 style cf = writeBody t1 style cf := by
  unfold writeBody
  simp only [writeTypeSections_congr h cf hndA hndB hndAn hndD hndI,
    fully_typed_congr h, sitedata_congr h style cf hndA,
    bondsdata_congr h hndB, anglesdata_congr h hndAn,
    dihedralsdata_congr h hndD, impropersdata_congr h hndI,
    header_congr h style, box_congr h cf,
    h.bondsEq, h.anglesEq, h.dihedralsEq, h.impropersEq]

/-- **C2 (amended)**: the emitted file is invariant under permuting the
construction order of the *type* collections (atom, bond, angle, dihedral,
improper types) whenever the canonical sort keys are pairwise distinct — the
type tables, type counts and type indices depend only on structural content.
Permuting the construction order of sites or connections, however, reorders the
Atoms/Bonds/… data rows, so byte-identical output holds only for type
permutations (see the counterexample for a site permutation). -/
theorem C2_type_order_independence (t1 t2 : TopologyR) (h : TypePermHyp t1 t2)
    (style us : String) (d : Option (List (String × ℚ)))
    (hndA : (t1.atom_types.map fun a => [strKey a.name]).Nodup)
    (hndB : (t1.bond_types.map fun t => (sort_by_types_bond t).map strKey).Nodup)
    (hndAn : (t1.angle_types.map fun t =>
      [strKey t.member_types.2.1,
       strKey (minStr t.member_types.1 t.member_types.2.2),
       strKey (maxStr t.member_types.1 t.member_types.2.2)]).Nodup)
    (hndD : (t1.dihedral_types.map fun t =>
      let m := sort_by_types_dihedral t
      [strKey (m.getD 1 ""), strKey (m.getD 2 ""), strKey (m.getD 0 ""),
       strKey (m.getD 3 "")]).Nodup)
    (hndI : (t1.improper_types.map fun t =>
      (sort_by_types_improper t).map strKey).Nodup) :
    write_lammpsdata t2 style us d = write_lammpsdata t1 style us d := by
  have hcc := convChecks_congr h
  have hbody : ∀ cf, writeBody t2 style cf = writeBody t1 style cf :=
    fun cf => writeBody_congr h style cf hndA hndB hndAn hndD hndI
  unfold write_lammpsdata _try_default_potential_conversions
  rw [hcc.1, hcc.2.1, hcc.2.2.1, hcc.2.2.2]
  simp only [Bind.bind, Except.bind]
  by_cases h1 : style ∉ writeAtomStyles
  · simp only [if_pos h1]
  · simp only [if_neg h1]
    by_cases h2 : us ∉ unitStyles
    · simp only [if_pos h2]
    · simp only [if_neg h2]
      by_cases h3 : us ≠ "lj" ∧ dictTruthy d = true
      · simp only [if_pos h3]
      · simp only [if_neg h3]
        cases convCheckImpropers t1 with
        | some e => rfl
        | none =>
          cases convCheckDihedrals t1 with
          | some e => rfl
          | none =>
            cases convCheckAngles t1 with
            | some e => rfl
            | none =>
              cases convCheckBonds t1 with
              | some e => rfl
              | none =>
                dsimp only [pure, Except.pure]
                rw [resolveLJ_congr h.atPerm (d.getD [])]
                by_cases h4 : us ≠ "lj"
                · simp only [if_pos h4]
                  exact hbody none
                · simp only [if_neg h4]
                  cases resolveLJ t1 (d.getD []) with
                  | error e => rfl
                  | ok f => exact hbody (some f)

/-! ## Claim C9: the triclinic box law -/

/-- **C9**: for a box with positive lengths and valid angles (the all-90° case
takes the orthogonal branch and is excluded by the claim), writing the
triclinic bounds and tilt factors and reading them back through the reader's
closed-form transform recovers the lengths and angles exactly — in particular
within the claimed 1e-6 absolute tolerance. -/
theorem C9_triclinic_box_roundtrip (a b c alpha beta gamma : ℝ)
    (ha : 0 < a) (hb : 0 < b) (hc : 0 < c)
    (ha0 : 0 ≤ alpha) (hapi : alpha ≤ Real.pi)
    (hb0 : 0 ≤ beta) (hbpi : beta ≤ Real.pi)
    (hg0 : 0 < gamma) (hgpi : gamma < Real.pi)
    (hw : 0 ≤ 1 - Real.cos beta ^ 2 -
      ((Real.cos alpha - Real.cos beta * Real.cos gamma) / Real.sin gamma) ^ 2)
    (hnot90 : ¬(alpha = Real.pi / 2 ∧ beta = Real.pi / 2
      ∧ gamma = Real.pi / 2)) :
    _get_box_coordinates_triclinic (_write_box_triclinic a b c alpha beta gamma)
      = ((a, b, c), (alpha, beta, gamma)) := by
  have hsg : 0 < Real.sin gamma := Real.sin_pos_of_pos_of_lt_pi hg0 hgpi
  unfold _write_box_triclinic _get_box_coordinates_triclinic
  dsimp only
  set m : ℝ := (Real.cos alpha - Real.cos beta * Real.cos gamma) / Real.sin gamma
    with hm
  have hlx : a + max (max 0 (b * Real.cos gamma))
        (max (c * Real.cos beta) (b * Real.cos gamma + c * Real.cos beta))
      - max (max 0 (b * Real.cos gamma))
        (max (c * Real.cos beta) (b * Real.cos gamma + c * Real.cos beta))
      - (0 + min (min 0 (b * Real.cos gamma))
          (min (c * Real.cos beta) (b * Real.cos gamma + c * Real.cos beta))
        - min (min 0 (b * Real.cos gamma))
          (min (c * Real.cos beta) (b * Real.cos gamma + c * Real.cos beta)))
      = a := by ring
  have hly : b * Real.sin gamma + max 0 (c * m) - max 0 (c * m)
      - (0 + min 0 (c * m) - min 0 (c * m)) = b * Real.sin gamma := by ring
  have hlz : c * Real.sqrt (1 - Real.cos beta ^ 2 - m ^ 2) - 0
      = c * Real.sqrt (1 - Real.cos beta ^ 2 - m ^ 2) := by ring
  rw [hlx, hly, hlz]
  have hbrec : Real.sqrt ((b * Real.sin gamma) ^ 2 + (b * Real.cos gamma) ^ 2)
      = b := by
    have hsum : (b * Real.sin gamma) ^ 2 + (b * Real.cos gamma) ^ 2 = b ^ 2 := by
      have hpyth := Real.sin_sq_add_cos_sq gamma
      nlinarith [hpyth]
    rw [hsum, Real.sqrt_sq hb.le]
  have hcrec : Real.sqrt ((c * Real.sqrt (1 - Real.cos beta ^ 2 - m ^ 2)) ^ 2
      + (c * Real.cos beta) ^ 2 + (c * m) ^ 2) = c := by
    have hwsq : Real.sqrt (1 - Real.cos beta ^ 2 - m ^ 2) ^ 2
        = 1 - Real.cos beta ^ 2 - m ^ 2 := Real.sq_sqrt hw
    have hsum : (c * Real.sqrt (1 - Real.cos beta ^ 2 - m ^ 2)) ^ 2
        + (c * Real.cos beta) ^ 2 + (c * m) ^ 2 = c ^ 2 := by
      nlinarith [hwsq]
    rw [hsum, Real.sqrt_sq hc.le]
  rw [hbrec, hcrec]
  have hgrec : Real.arccos (b * Real.cos gamma / b) = gamma := by
    rw [mul_comm, mul_div_assoc, div_self hb.ne', mul_one,
      Real.arccos_cos hg0.le hgpi.le]
  have hbetarec : Real.arccos (c * Real.cos beta / c) = beta := by
    rw [mul_comm, mul_div_assoc, div_self hc.ne', mul_one,
      Real.arccos_cos hb0 hbpi]
  have halpharec : Real.arccos ((c * m * (b * Real.sin gamma)
      + b * Real.cos gamma * (c * Real.cos beta)) / (b * c)) = alpha := by
    have hnum : c * m * (b * Real.sin gamma)
        + b * Real.cos gamma * (c * Real.cos beta)
        = b * c * Real.cos alpha := by
      rw [hm]
      field_simp
      ring
    rw [hnum, mul_comm (b * c), mul_div_assoc,
      div_self (by positivity : b * c ≠ 0), mul_one,
      Real.arccos_cos ha0 hapi]
  rw [hgrec, hbetarec, halpharec]

/-! ## Concrete topologies and evaluated claims

Decidable evaluation of the embedded pipeline needs the arithmetic of `ℚ` to
reduce; the standard rational operations are restored to reducible inside this
section for that purpose. -/

deriving instance DecidableEq for Except

section ConcreteEvaluation

set_option allowUnsafeReducibility true

attribute [local reducible] Rat.mul Rat.add Rat.sub Rat.neg Rat.div Rat.inv Rat.blt

/-- The lines actually written: the payload of a successful
`write_lammpsdata` call (empty when the call raised). -/
def writeOut (top : TopologyR) (atom_style unit_style : String)
    (d : Option (List (String × ℚ))) : List Line :=
  (write_lammpsdata top atom_style unit_style d).toOption.getD []

/-- The carbon-like atom type of the round-trip scenario: mass 12.011 g/mol. -/
def ctC : AtomTypeR :=
  { name := "C", parameters := [("sigma", 35/10), ("epsilon", 66/1000)],
    mass := 12011/1000 }

/-- The hydrogen-like atom type of the round-trip scenario: mass 1.008 g/mol. -/
def ctH : AtomTypeR :=
  { name := "H", parameters := [("sigma", 25/10), ("epsilon", 3/100)],
    mass := 1008/1000 }

/-- The scenario bond type: `k = 340 kcal/mol/Å²`, `r_eq = 1.09 Å`, already on
the accepted LAMMPS harmonic template. -/
def btCH : BondTypeR :=
  { name := "LAMMPSHarmonicBondPotential", k := 340, r_eq := 109/100,
    member_types := ("C", "H") }

/-- The fully typed scenario topology: two typed sites and one typed bond in an
orthogonal box. -/
def topRoundtrip : TopologyR :=
  { name := "scenario",
    sites := [{ position := (0, 0, 0), moleculeNumber := 1,
                atom_type := some ctC },
              { position := (109/100, 0, 0), moleculeNumber := 1,
                atom_type := some ctH }],
    bonds := [{ members := [0, 1], bond_type := some btCH }],
    atom_types := [ctC, ctH], bond_types := [btCH],
    box := { lengths := (10, 10, 10) } }

/-- **C1**: write-then-read is not the identity on this fully typed topology
whose types all match accepted templates.  The writer emits the mass row
`1 12.011 # C` and the bond row `1 340 1.09`; reading the mass row back names
the atom type `"1"` (the index token), not `"C"`, and reading the bond row back
doubles `k` to `680`, far outside the claimed 1e-5 tolerance of the original
340. -/
theorem C1_roundtrip_failure :
    Line.massRow 1 (12011/1000) "C" ∈ writeOut topRoundtrip "full" "real" none
    ∧ (readAtomTypeOfMassLine (Line.massRow 1 (12011/1000) "C")).map
        (fun t => t.name) = .ok "1"
    ∧ ("1" : String) ≠ "C"
    ∧ Line.bondCoeffRow 1 340 (109/100) "C" "H"
        ∈ writeOut topRoundtrip "full" "real" none
    ∧ (readBondCoeffRow "real" [1, 340, 109/100]).map (fun t => t.k.val)
        = .ok 680
    ∧ ¬(|(680 : ℚ) - 340| ≤ 1/100000) := by decide

/-- **C3 (counterexample)**: no emitted Bond Coeffs row of the scenario has a
`k` field of 680 (the writer does not double), and reading the emitted row
`1 340 1.09` back does not recover `k = 340`. -/
theorem C3_counterexample :
    ((writeOut topRoundtrip "full" "real" none).all fun l =>
      match l with
      | .bondCoeffRow _ k _ _ _ => decide (k ≠ 680)
      | _ => true) = true
    ∧ Line.bondCoeffRow 1 340 (109/100) "C" "H"
        ∈ writeOut topRoundtrip "full" "real" none
    ∧ (readBondCoeffRow "real" [1, 340, 109/100]).map (fun t => t.k.val)
        ≠ .ok 340 := by decide

/-- **C3 (amended)**: in the scenario the writer emits the Bond Coeffs row with
`k` unchanged at `340.0` (the unit conversion only rounds; there is no
LAMMPS-halves-k doubling on write), and the reader applied to that emitted row
produces a bond type with `k = 680` (the reader's factor of two) and
`r_eq = 1.09` unchanged. -/
theorem C3_bond_k_scenario :
    (write_lammpsdata topRoundtrip "full" "real" none).isOk = true
    ∧ Line.bondCoeffRow 1 340 (109/100) "C" "H"
        ∈ writeOut topRoundtrip "full" "real" none
    ∧ ((writeOut topRoundtrip "full" "real" none).all fun l =>
        match l with
        | .bondCoeffRow _ k _ _ _ => decide (k = 340)
        | _ => true) = true
    ∧ (readBondCoeffRow "real" [1, 340, 109/100]).map (fun t => t.k.val)
        = .ok 680
    ∧ (readBondCoeffRow "real" [1, 340, 109/100]).map (fun t => t.r_eq.val)
        = .ok (109/100) := by decide

/-- Two structurally identical atom types that differ only in mass. -/
def atC7a : AtomTypeR :=
  { name := "CT", parameters := [("sigma", 3), ("epsilon", 1)],
    mass := 12011/1000 }

/-- As `atC7a` but with the hydrogen mass. -/
def atC7b : AtomTypeR :=
  { name := "CT", parameters := [("sigma", 3), ("epsilon", 1)],
    mass := 1008/1000 }

/-- **C7 (counterexample)**: identical name, expression, independent variables
and parameters, yet `AtomType.__eq__` returns unequal — the mass (an attribute
outside the claim's structural list) breaks the equality, so equality does not
hold "regardless of any other attributes". -/
theorem C7_counterexample :
    (atC7a.name = atC7b.name ∧ atC7a.expression = atC7b.expression
      ∧ atC7a.independent_variables = atC7b.independent_variables
      ∧ atC7a.parameters = atC7b.parameters)
    ∧ aeq atC7a atC7b = false := by decide

/-- A record with the same content as `atC7a`, constructed separately. -/
def atC7c : AtomTypeR :=
  { name := "CT", parameters := [("sigma", 3), ("epsilon", 1)],
    mass := 12011/1000 }

/-- **C7 (witness)**: two separately constructed records agreeing on the
structural content *and* all remaining attributes compare equal. -/
theorem C7_witness : aeq atC7a atC7c = true :=
  (C7_eq_iff_all_attributes atC7a atC7c rfl rfl rfl rfl).mpr (by decide)

/-- An atom type as the reader's Masses loop leaves it (default parameters). -/
def atC8 : AtomTypeR := { name := "1", mass := 12011/1000 }

/-- **C8 (counterexample)**: a four-token pair row (`1 0.5 3.5 12`, an extra
cutoff column) raises the warning flag but writes nothing into the atom type —
its epsilon/sigma are *not* read, contradicting "its first two parameters are
still read into the atom type". -/
theorem C8_counterexample :
    pairLoop [atC8] [[1, 1/2, 7/2, 12]] = .ok ([atC8], true)
    ∧ paramQ atC8 "sigma" ≠ some (7/2)
    ∧ paramQ atC8 "epsilon" ≠ some (1/2) := by decide

/-- A second reader-built atom type. -/
def atC8b : AtomTypeR := { name := "2", mass := 1008/1000 }

/-- **C8 (witness)**: on a three-token row followed by a four-token row the
loop sets sigma/epsilon from the first row, drops the second whole row and
raises the warning flag, without raising. -/
theorem C8_witness :
    pairLoop [atC8, atC8b] [[1, 2, 3], [2, 5, 6, 12]] =
      .ok ([setParam (setParam atC8 "sigma" 3) "epsilon" 2, atC8b], true) := by
  rw [C8_pair_loop_spec [atC8, atC8b] [[1, 2, 3], [2, 5, 6, 12]] (by decide)]
  decide

/-- An atom type shared by the order-independence example topologies. -/
def atX : AtomTypeR :=
  { name := "X", parameters := [("sigma", 3), ("epsilon", 1)], mass := 1 }

/-- A site at the origin. -/
def siteP : SiteR :=
  { position := (0, 0, 0), moleculeNumber := 1, atom_type := some atX }

/-- A site at x = 1. -/
def siteQ : SiteR :=
  { position := (1, 0, 0), moleculeNumber := 1, atom_type := some atX }

/-- Two sites in construction order P, Q. -/
def topC2a : TopologyR :=
  { name := "pair", sites := [siteP, siteQ], atom_types := [atX],
    box := { lengths := (10, 10, 10) } }

/-- The same topology with the sites' construction order swapped. -/
def topC2b : TopologyR := { topC2a with sites := [siteQ, siteP] }

/-- **C2 (counterexample)**: permuting the construction order of the *sites*
(all other content equal) changes the written bytes — the Atoms rows follow
topology order, so the output is not invariant under every permutation of
sites, connections and types. -/
theorem C2_counterexample :
    topC2b.sites.Perm topC2a.sites
    ∧ topC2b.bonds = topC2a.bonds ∧ topC2b.angles = topC2a.angles
    ∧ topC2b.dihedrals = topC2a.dihedrals
    ∧ topC2b.impropers = topC2a.impropers
    ∧ topC2b.atom_types = topC2a.atom_types
    ∧ topC2b.bond_types = topC2a.bond_types
    ∧ topC2b.angle_types = topC2a.angle_types
    ∧ topC2b.dihedral_types = topC2a.dihedral_types
    ∧ topC2b.improper_types = topC2a.improper_types
    ∧ topC2b.box = topC2a.box ∧ topC2b.name = topC2a.name
    ∧ write_lammpsdata topC2b "full" "real" none
        ≠ write_lammpsdata topC2a "full" "real" none := by decide

/-- **C2 (witness)**: permuting the construction order of the atom-type view of
the scenario topology leaves the written file byte-identical. -/
theorem C2_witness :
    write_lammpsdata { topRoundtrip with atom_types := [ctH, ctC] }
        "full" "real" none
      = write_lammpsdata topRoundtrip "full" "real" none := by
  have h : TypePermHyp topRoundtrip
      { topRoundtrip with atom_types := [ctH, ctC] } :=
    ⟨rfl, rfl, rfl, rfl, rfl, rfl, rfl, by decide, by decide, by decide,
      by decide, by decide⟩
  exact C2_type_order_independence topRoundtrip _ h "full" "real" none
    (by decide) (by decide) (by decide) (by decide) (by decide)

/-- **C4 (witness)**: with only `mass` supplied, the other three factors
resolve to the topology maxima (sigma 3.5, epsilon 0.066, charge 0). -/
theorem C4_witness :
    ∃ f, resolveLJ topRoundtrip [("mass", 5)] = .ok f
      ∧ (List.lookup "length" [("mass", (5 : ℚ))] = none →
          pyMax (topRoundtrip.atom_types.map fun a => (paramQ a "sigma").getD 0)
            = .ok f.length)
      ∧ (List.lookup "energy" [("mass", (5 : ℚ))] = none →
          pyMax (topRoundtrip.atom_types.map fun a =>
            (paramQ a "epsilon").getD 0) = .ok f.energy)
      ∧ (List.lookup "mass" [("mass", (5 : ℚ))] = none →
          pyMax (topRoundtrip.atom_types.map (·.mass)) = .ok f.mass)
      ∧ (List.lookup "charge" [("mass", (5 : ℚ))] = none →
          pyMax (topRoundtrip.atom_types.map (·.charge)) = .ok f.charge) :=
  (C4_lj_default_factors topRoundtrip [("mass", 5)] (by decide)
    (by decide)).1 (by decide)

/-- **C5 (witness)**: unsupported styles and the cfactors/style mismatch all
raise `ValueError` with no output written, for both writer and reader. -/
theorem C5_witness :
    write_lammpsdata topRoundtrip "angle" "real" none = .error .valueError
    ∧ write_lammpsdata topRoundtrip "full" "styleX" none = .error .valueError
    ∧ write_lammpsdata topRoundtrip "full" "real" (some [("length", 2)])
        = .error .valueError
    ∧ read_lammpsdata_validate "atomic" "real" = some .valueError
    ∧ read_lammpsdata_validate "full" "styleX" = some .valueError := by
  refine ⟨(C5_config_errors_fail_fast topRoundtrip "angle" "real" none).1
      (by decide),
    (C5_config_errors_fail_fast topRoundtrip "full" "styleX" none).2.1
      (by decide),
    (C5_config_errors_fail_fast topRoundtrip "full" "real"
      (some [("length", 2)])).2.2.1 (by decide) (by decide),
    (C5_config_errors_fail_fast topRoundtrip "atomic" "real" none).2.2.2.1
      (by decide),
    (C5_config_errors_fail_fast topRoundtrip "full" "styleX" none).2.2.2.2
      (by decide)⟩

/-- **C6 (witness)**: in the `real` style the equilibrium-angle unit is the
degree while the force-constant angle unit is the radian; the `lj` style also
diverges; a parsed Angle Coeffs row carries its `theta_eq` in degrees. -/
theorem C6_witness :
    get_units "real" "angle_eq" ≠ get_units "real" "angle"
    ∧ get_units "real" "angle_eq" = LUnit.degree
    ∧ get_units "lj" "angle_eq" ≠ get_units "lj" "angle"
    ∧ (readAngleCoeffRow "real" [1, 50, 120]).map (fun t => t.theta_eq.unit)
        = .ok LUnit.degree := by
  have h := C6_angle_eq_divergence "real" (by decide)
  have hlj := C6_angle_eq_divergence "lj" (by decide)
  exact ⟨h.1, (h.2.1 (by decide)).1, hlj.1, by decide⟩

/-- A bond type on the accepted LAMMPS harmonic template. -/
def btAll : BondTypeR :=
  { name := "LAMMPSHarmonicBondPotential", k := 2, r_eq := 1, member_types := ("X", "X") }

/-- An angle type on the accepted LAMMPS harmonic template. -/
def antAll : AngleTypeR :=
  { name := "LAMMPSHarmonicAnglePotential", k := 3, theta_eq := 120, member_types := ("X", "X", "X") }

/-- A dihedral type on the accepted OPLS template. -/
def dtAll : DihedralTypeR :=
  { name := "OPLSTorsionPotential", k1 := 1, k2 := 2, k3 := 3, k4 := 4, member_types := ("X", "X", "X", "X") }

/-- An improper type on the accepted harmonic template. -/
def itAll : ImproperTypeR :=
  { name := "HarmonicImproperPotential", k := 5, phi_eq := 0, member_types := ("X", "X", "X", "X") }

/-- A topology with one connection of every kind, fully typed on the accepted
templates. -/
def topAll : TopologyR :=
  { name := "all",
    sites := [{ position := (0, 0, 0), moleculeNumber := 1,
                atom_type := some atX },
              { position := (1, 0, 0), moleculeNumber := 1,
                atom_type := some atX },
              { position := (2, 0, 0), moleculeNumber := 1,
                atom_type := some atX },
              { position := (3, 0, 0), moleculeNumber := 1,
                atom_type := some atX }],
    bonds := [{ members := [0, 1], bond_type := some btAll }],
    angles := [{ members := [0, 1, 2], angle_type := some antAll }],
    dihedrals := [{ members := [0, 1, 2, 3], dihedral_type := some dtAll }],
    impropers := [{ members := [0, 1, 2, 3], improper_type := some itAll }],
    atom_types := [atX],
    bond_types := [btAll],
    angle_types := [antAll],
    dihedral_types := [dtAll],
    improper_types := [itAll],
    box := { lengths := (10, 10, 10) } }

/-- **C10 (witness)**: writing `topAll` with `atom_style="atomic"` omits the
bond count and bond-type count lines yet still writes the Bonds and Impropers
sections. -/
theorem C10_witness :
    Line.countBonds 1 ∉ writeOut topAll "atomic" "real" none
    ∧ Line.countBondTypes 1 ∉ writeOut topAll "atomic" "real" none
    ∧ Line.sectionHeader "Bonds" ∈ writeOut topAll "atomic" "real" none
    ∧ Line.sectionHeader "Impropers" ∈ writeOut topAll "atomic" "real" none := by
  have hok : write_lammpsdata topAll "atomic" "real" none =
      .ok (writeOut topAll "atomic" "real" none) := by decide
  have h := C10_atomic_charge_header_mismatch topAll "atomic" "real" none _
    (Or.inl rfl) hok
  exact ⟨h.1.1 1, h.1.2.1 1, h.1.2.2 (by decide), h.2.2.2.2.2 (by decide)⟩

end ConcreteEvaluation

/-- **C9 (witness)**: a concrete triclinic box with lengths (2, 3, 4) and all
angles 60° is recovered exactly by the reader's transform. -/
theorem C9_witness :
    _get_box_coordinates_triclinic
      (_write_box_triclinic 2 3 4 (Real.pi / 3) (Real.pi / 3) (Real.pi / 3))
      = ((2, 3, 4), (Real.pi / 3, Real.pi / 3, Real.pi / 3)) := by
  have hpi := Real.pi_pos
  refine C9_triclinic_box_roundtrip 2 3 4 _ _ _ (by norm_num) (by norm_num)
    (by norm_num) (by positivity) (by linarith) (by positivity) (by linarith)
    (by positivity) (by linarith) ?hw ?h90
  case hw =>
    rw [Real.cos_pi_div_three, Real.sin_pi_div_three]
    have h34 : (Real.sqrt 3 / 2) ^ 2 = 3 / 4 := by
      rw [div_pow, Real.sq_sqrt (by norm_num : (0 : ℝ) ≤ 3)]
      norm_num
    have hkey : ((1 / 2 - 1 / 2 * (1 / 2)) / (Real.sqrt 3 / 2) : ℝ) ^ 2
        = 1 / 12 := by
      rw [div_pow, h34]
      norm_num
    rw [hkey]
    norm_num
  case h90 =>
    rintro ⟨h1, _⟩
    linarith
